import Mathlib

set_option maxRecDepth 4000

/-
  Shallow embedding of the erpnext_chatbot agent orchestration core.

  Sources embedded (paths relative to the repository root):
  - erpnext_chatbot/services/chart_data_builder.py   (ChartDataBuilder)
  - erpnext_chatbot/services/agent_orchestrator.py   (process_message,
    execute_tool, _update_audit_log, _parse_chart_from_response,
    _clean_chart_markers, _get_user_friendly_error)
  - erpnext_chatbot/ai_chatbot/doctype/chat_message/chat_message.py
  - erpnext_chatbot/erpnext_chatbot/ai_chatbot/doctype/chat_session/chat_session.py
  - erpnext_chatbot/tools/base_tool.py               (decorator pipeline)
  - erpnext_chatbot/erpnext_chatbot/services/audit_logger.py

  Python scalar values (as they appear in tool arguments and report rows)
  are modelled by the type V below; Python floats are modelled exactly by
  rationals, which agrees with the source on every value the claims touch.
-/

/-- Model of a Python scalar value found in a row / argument dictionary:
a string, a number (int or float, modelled as a rational), a boolean, or None. -/
inductive V where
  | s (x : String)
  | n (q : Rat)
  | b (x : Bool)
  | null
  deriving DecidableEq, Repr

/-- Association-list lookup, modelling Python dict access (keys are unique). -/
def assocGet {α : Type} (l : List (String × α)) (k : String) : Option α :=
  match l with
  | [] => none
  | (k', v) :: t => if k' = k then some v else assocGet t k

/-- Association-list update, modelling Python dict assignment d[k] = v:
the existing key keeps its position with the new value, a new key is appended. -/
def assocSet {α : Type} (l : List (String × α)) (k : String) (v : α) : List (String × α) :=
  match l with
  | [] => [(k, v)]
  | (k', v') :: t => if k' = k then (k, v) :: t else (k', v') :: assocSet t k v

/-- Does the dictionary have the given key. -/
def assocHasKey {α : Type} (l : List (String × α)) (k : String) : Bool :=
  (assocGet l k).isSome

/-- Remove a key from the dictionary, modelling the comprehension that filters
internal kwargs out of the logged parameters. -/
def assocRemove {α : Type} (l : List (String × α)) (k : String) : List (String × α) :=
  l.filter (fun p => p.1 ≠ k)

/-- Python dict.get(k): returns None both when the key is absent and when the
stored value is None, which is how the source uses it for presence tests. -/
def getPy (r : List (String × V)) (k : String) : Option V :=
  match assocGet r k with
  | some V.null => none
  | some v => some v
  | none => none

/-- Model of Python str(x) on a scalar value. String values render as
themselves, which is the only case the claims evaluate; numbers use the
rational printer as an approximation of the Python numeric repr. -/
def pyStr (v : V) : String :=
  match v with
  | V.s x => x
  | V.n q => toString q
  | V.b true => "True"
  | V.b false => "False"
  | V.null => "None"

/-- Characters counted as whitespace by Python str.strip and the regex class
backslash-s. -/
def isPyWs (c : Char) : Bool :=
  c = ' ' || c = '\t' || c = '\n' || c = '\r' || c = Char.ofNat 11 || c = Char.ofNat 12

/-- Rational addition through mkRat (the library operations are sealed
against reduction, so the embedding carries its own, definitionally equal on
values). -/
def qAdd (a b : Rat) : Rat :=
  mkRat (a.num * (b.den : Int) + b.num * (a.den : Int)) (a.den * b.den)

/-- Rational multiplication through mkRat. -/
def qMul (a b : Rat) : Rat := mkRat (a.num * b.num) (a.den * b.den)

/-- Rational division through mkRat; division by zero yields zero, a case
the embedded code never reaches (the zero total is guarded). -/
def qDiv (a b : Rat) : Rat :=
  mkRat (a.num * (b.den : Int) * (if b.num < 0 then -1 else 1)) (a.den * b.num.natAbs)

/-- Strict comparison of rationals by cross multiplication. -/
def qLt (a b : Rat) : Bool := a.num * (b.den : Int) < b.num * (a.den : Int)

/-- Sum of a list of rationals. -/
def qSum (l : List Rat) : Rat := l.foldr qAdd 0

/-- Digits helper. -/
def isDigitCh (c : Char) : Bool := 48 ≤ c.toNat && c.toNat ≤ 57

/-- Value of a digit character. -/
def digitVal (c : Char) : Nat := c.toNat - 48

/-- Parse an unsigned run of digits, returning the accumulated value, the
number of digits consumed and the rest. -/
def parseDigits : List Char → Nat → Nat → (Nat × Nat × List Char)
  | [], acc, cnt => (acc, cnt, [])
  | c :: t, acc, cnt =>
    if isDigitCh c then parseDigits t (acc * 10 + digitVal c) (cnt + 1)
    else (acc, cnt, c :: t)

/-- Model of Python float(str) on plain decimal literals: optional sign,
digits with an optional fractional part and optional exponent, surrounded by
optional whitespace.  Inputs float() would reject (such as the letter x used
in the spec example) yield none; the inf and nan spellings are not modelled
because the claims never touch them. -/
def parseDecimal (s : String) : Option Rat :=
  let cs := (s.data.dropWhile isPyWs)
  let (neg, cs1) :=
    match cs with
    | '-' :: t => (true, t)
    | '+' :: t => (false, t)
    | t => (false, t)
  let (ip, ipCnt, cs2) := parseDigits cs1 0 0
  let (fp, fpCnt, cs3) :=
    match cs2 with
    | '.' :: t => parseDigits t 0 0
    | t => (0, 0, t)
  if ipCnt + fpCnt = 0 then none
  else
    let (expOk, e, negE, cs4) :=
      match cs3 with
      | 'e' :: t | 'E' :: t =>
        let (negE, t1) :=
          match t with
          | '-' :: t' => (true, t')
          | '+' :: t' => (false, t')
          | t' => (false, t')
        let (ev, ecnt, t2) := parseDigits t1 0 0
        (ecnt != 0, ev, negE, t2)
      | t => (true, 0, false, t)
    if expOk = false then none
    else if (cs4.dropWhile isPyWs).isEmpty = false then none
    else
      let numAbs : Nat := (ip * 10 ^ fpCnt + fp) * (if negE then 1 else 10 ^ e)
      let den : Nat := 10 ^ fpCnt * (if negE then 10 ^ e else 1)
      some (mkRat (if neg then -(numAbs : Int) else (numAbs : Int)) den)

/-- Model of Python float(x) on a scalar value: numbers pass through, strings
go through the decimal parser, booleans become 0 or 1, None raises (none). -/
def pyFloat (v : V) : Option Rat :=
  match v with
  | V.n q => some q
  | V.s x => parseDecimal x
  | V.b true => some 1
  | V.b false => some 0
  | V.null => none

/-- Python str.title applied to field names when the builder makes a default
chart title: a letter is uppercased when the previous character is not a
letter and lowercased otherwise. -/
def pyTitleGo : Bool → List Char → List Char
  | _, [] => []
  | prevAlpha, c :: t =>
    if c.isAlpha then
      (if prevAlpha then c.toLower else c.toUpper) :: pyTitleGo true t
    else c :: pyTitleGo false t

/-- Python str.title. -/
def pyTitle (s : String) : String := String.mk (pyTitleGo false s.data)

/-- Group the decimal digits of a natural number in threes with commas,
modelling the comma flag of Python format specs. -/
def groupDigitsGo : List Char → Nat → List Char
  | [], _ => []
  | c :: t, k =>
    if k = 3 then ',' :: c :: groupDigitsGo t 1
    else c :: groupDigitsGo t (k + 1)

/-- Round a rational to the nearest integer, ties to even, modelling Python
round / format rounding on exact values; computed on the numerator and
denominator directly. -/
def roundHalfEvenInt (q : Rat) : Int :=
  let fl : Int := q.num.fdiv (q.den : Int)
  let rem : Int := q.num - fl * (q.den : Int)
  if rem * 2 < (q.den : Int) then fl
  else if (q.den : Int) < rem * 2 then fl + 1
  else if fl % 2 = 0 then fl else fl + 1

/-- Model of the Python format spec comma-dot-zero-f used for the pie chart
description total. -/
def fmtCommas0 (q : Rat) : String :=
  let n := roundHalfEvenInt q
  let digitsRev := (Nat.toDigits 10 n.natAbs).reverse
  let grouped := (groupDigitsGo digitsRev 0).reverse
  (if n < 0 then "-" else "") ++ String.mk grouped

/-- Round a rational to 2 decimal places, ties to even, modelling
round(x, 2) from calculate_distribution on exact values. -/
def round2 (q : Rat) : Rat := mkRat (roundHalfEvenInt (qMul q 100)) 100

/-- Model of a Python json.loads result value.  Numbers are exact rationals,
matching the source on every numeric literal the claims evaluate. -/
inductive Json where
  | null
  | bool (b : Bool)
  | num (q : Rat)
  | str (s : String)
  | arr (elems : List Json)
  | obj (fields : List (String × Json))

/-- Whitespace accepted between JSON tokens (the four characters the json
module skips). -/
def isJsonWs (c : Char) : Bool :=
  c = ' ' || c = '\t' || c = '\n' || c = '\r'

/-- Hexadecimal digit value for unicode escapes. -/
def hexVal (c : Char) : Option Nat :=
  let n := c.toNat
  if isDigitCh c then some (digitVal c)
  else if 97 ≤ n && n ≤ 102 then some (n - 87)
  else if 65 ≤ n && n ≤ 70 then some (n - 55)
  else none

/-- Parse the contents of a JSON string after its opening quote, handling the
standard escapes.  Unicode escapes become the corresponding character;
surrogate pairing is not modelled (no claim touches it). -/
def parseJStr : List Char → List Char → Option (String × List Char)
  | _, [] => none
  | acc, '"' :: t => some (String.mk acc.reverse, t)
  | acc, '\\' :: e :: t =>
    match e with
    | '"' => parseJStr ('"' :: acc) t
    | '\\' => parseJStr ('\\' :: acc) t
    | '/' => parseJStr ('/' :: acc) t
    | 'b' => parseJStr (Char.ofNat 8 :: acc) t
    | 'f' => parseJStr (Char.ofNat 12 :: acc) t
    | 'n' => parseJStr ('\n' :: acc) t
    | 'r' => parseJStr ('\r' :: acc) t
    | 't' => parseJStr ('\t' :: acc) t
    | 'u' =>
      match t with
      | h1 :: h2 :: h3 :: h4 :: t' =>
        match hexVal h1, hexVal h2, hexVal h3, hexVal h4 with
        | some a, some b, some c, some d =>
          parseJStr (Char.ofNat (((a * 16 + b) * 16 + c) * 16 + d) :: acc) t'
        | _, _, _, _ => none
      | _ => none
    | _ => none
  | _, '\\' :: [] => none
  | acc, c :: t => if c.toNat < 32 then none else parseJStr (c :: acc) t

/-- Parse a JSON number after an optional leading minus sign (already
consumed, passed as neg); enforces the no-leading-zero rule of the
grammar. -/
def parseJNumBody (neg : Bool) (cs : List Char) : Option (Rat × List Char) :=
  let intOk : Bool :=
    match cs with
    | '0' :: d :: _ => !(isDigitCh d)
    | '0' :: [] => true
    | d :: _ => isDigitCh d
    | [] => false
  if intOk = false then none
  else
    let (ip, _, cs2) := parseDigits cs 0 0
    let (fracOk, fp, fpCnt, cs3) :=
      match cs2 with
      | '.' :: t =>
        let (fv, fcnt, t2) := parseDigits t 0 0
        (fcnt != 0, fv, fcnt, t2)
      | t => (true, 0, 0, t)
    if fracOk = false then none
    else
      let (expOk, ev, negE, cs4) :=
        match cs3 with
        | 'e' :: t | 'E' :: t =>
          let (negE, t1) :=
            match t with
            | '-' :: t' => (true, t')
            | '+' :: t' => (false, t')
            | t' => (false, t')
          let (ev, ecnt, t2) := parseDigits t1 0 0
          (ecnt != 0, ev, negE, t2)
        | t => (true, 0, false, t)
      if expOk = false then none
      else
        let numAbs : Nat := (ip * 10 ^ fpCnt + fp) * (if negE then 1 else 10 ^ ev)
        let den : Nat := 10 ^ fpCnt * (if negE then 10 ^ ev else 1)
        some (mkRat (if neg then -(numAbs : Int) else (numAbs : Int)) den, cs4)

/-- Skip inter-token whitespace. -/
def skipJWs (cs : List Char) : List Char := cs.dropWhile isJsonWs

mutual

/-- Fuelled recursive-descent JSON value parser mirroring json.loads.  A call
consumes at least one character before recursing, and any two consecutive
calls consume at least one, so the fuel supplied by jsonLoads never runs out
on its inputs. -/
def parseJVal : Nat → List Char → Option (Json × List Char)
  | 0, _ => none
  | _ + 1, [] => none
  | fuel + 1, c :: t =>
    if c = 'n' then
      match t with
      | 'u' :: 'l' :: 'l' :: t' => some (Json.null, t')
      | _ => none
    else if c = 't' then
      match t with
      | 'r' :: 'u' :: 'e' :: t' => some (Json.bool true, t')
      | _ => none
    else if c = 'f' then
      match t with
      | 'a' :: 'l' :: 's' :: 'e' :: t' => some (Json.bool false, t')
      | _ => none
    else if c = '"' then
      match parseJStr [] t with
      | some (s, t') => some (Json.str s, t')
      | none => none
    else if c = '-' then
      match parseJNumBody true t with
      | some (q, t') => some (Json.num q, t')
      | none => none
    else if isDigitCh c then
      match parseJNumBody false (c :: t) with
      | some (q, t') => some (Json.num q, t')
      | none => none
    else if c = '[' then
      match skipJWs t with
      | ']' :: t' => some (Json.arr [], t')
      | t1 => parseJArrItems fuel t1 []
    else if c = Char.ofNat 123 then
      match skipJWs t with
      | t1 =>
        match t1 with
        | '"' :: _ => parseJObjItems fuel t1 []
        | d :: t2 => if d = Char.ofNat 125 then some (Json.obj [], t2) else none
        | [] => none
    else none

/-- Parse the elements of a JSON array after the opening bracket (first
element position), accumulating in reverse. -/
def parseJArrItems : Nat → List Char → List Json → Option (Json × List Char)
  | 0, _, _ => none
  | fuel + 1, cs, acc =>
    match parseJVal fuel cs with
    | none => none
    | some (v, rest) =>
      match skipJWs rest with
      | ',' :: t => parseJArrItems fuel (skipJWs t) (v :: acc)
      | ']' :: t => some (Json.arr (v :: acc).reverse, t)
      | _ => none

/-- Parse the members of a JSON object after the opening brace (first key
position).  Duplicate keys overwrite in place, matching Python dict
construction. -/
def parseJObjItems : Nat → List Char → List (String × Json) → Option (Json × List Char)
  | 0, _, _ => none
  | fuel + 1, cs, acc =>
    match cs with
    | '"' :: t =>
      match parseJStr [] t with
      | none => none
      | some (k, rest) =>
        match skipJWs rest with
        | ':' :: t2 =>
          match parseJVal fuel (skipJWs t2) with
          | none => none
          | some (v, rest2) =>
            let acc' := assocSet acc k v
            match skipJWs rest2 with
            | ',' :: t3 =>
              match skipJWs t3 with
              | '"' :: t4 => parseJObjItems fuel ('"' :: t4) acc'
              | _ => none
            | d :: t3 => if d = Char.ofNat 125 then some (Json.obj acc', t3) else none
            | [] => none
        | _ => none
    | _ => none

end

/-- Model of json.loads on a character list: parse one value surrounded by
optional whitespace and require the input to be fully consumed. -/
def jsonLoads (cs : List Char) : Option Json :=
  match parseJVal (2 * cs.length + 4) (skipJWs cs) with
  | some (v, rest) => if (skipJWs rest).isEmpty then some v else none
  | none => none

/-- A data row handed to the chart builder: a Python dictionary from field
names to scalar values (non-dict rows, which the source skips, are outside
the model). -/
def Row : Type := List (String × V)

/-- One extracted label-value pair. -/
structure LV where
  label : String
  value : Rat
  deriving DecidableEq, Repr

/-- The chart dictionary built by ChartDataBuilder.  The source returns plain
dicts whose key sets differ slightly per method; optional fields stand for
keys a given method leaves out. -/
structure ChartData where
  chart_type : String
  title : String
  labels : List String
  values : List Rat
  x_axis_label : Option String
  y_axis_label : Option String
  colors : List String
  description : Option String
  deriving DecidableEq, Repr

/-- DEFAULT_COLORS from chart_data_builder.py. -/
def DEFAULT_COLORS : List String :=
  ["#2491eb", "#5e64ff", "#00c3b3", "#28c76f", "#ff6b6b",
   "#f9c846", "#743ee2", "#ea5455", "#a5a5a5", "#1a1a2e"]

/-- MAX_DATA_POINTS from chart_data_builder.py. -/
def MAX_DATA_POINTS : Nat := 50

/-- MIN_DATA_POINTS from chart_data_builder.py. -/
def MIN_DATA_POINTS : Nat := 2

/-- The valid label-value pair a row contributes, if any: skipped when the
label or value is missing (or None) or the value does not convert to a
number; mirrors the body of the loop in ChartDataBuilder._extract_data. -/
def pairOf (r : Row) (labelsField valuesField : String) : Option LV :=
  match getPy r labelsField, getPy r valuesField with
  | some lv, some vv =>
    match pyFloat vv with
    | some q => some { label := pyStr lv, value := q }
    | none => none
  | _, _ => none

/-- ChartDataBuilder._extract_data: collect valid pairs in order, stopping
once the limit is reached (the source breaks after appending when the result
has reached the limit, so a limit of zero still yields one pair). -/
def extractData : List Row → String → String → Nat → List LV
  | [], _, _, _ => []
  | r :: rest, lf, vf, limit =>
    match pairOf r lf vf with
    | none => extractData rest lf vf limit
    | some lv => if limit ≤ 1 then [lv] else lv :: extractData rest lf vf (limit - 1)

/-- All valid pairs of the input, with no limit: the filtering the spec
describes, used to state the insufficient-data claim. -/
def filterValid (data : List Row) (lf vf : String) : List LV :=
  data.filterMap (fun r => pairOf r lf vf)

/-- ChartDataBuilder.build_chart_data. -/
def buildChartData (data : List Row) (labelsField valuesField chartType : String)
    (title : Option String) (xAxisLabel yAxisLabel : Option String)
    (colors : Option (List String)) (limit : Nat) : Option ChartData :=
  if data.length < MIN_DATA_POINTS then none
  else
    let extracted := extractData data labelsField valuesField limit
    if extracted.length < MIN_DATA_POINTS then none
    else
      let labels := extracted.map LV.label
      let values := extracted.map LV.value
      some
        { chart_type := chartType
          title := (title.getD (pyTitle valuesField ++ " by " ++ pyTitle labelsField))
          labels := labels
          values := values
          x_axis_label := xAxisLabel
          y_axis_label := yAxisLabel
          colors := colors.getD (DEFAULT_COLORS.take values.length)
          description := none }

/-- Ordered aggregation map update: add the value to an existing category in
place, or append a fresh category, mirroring defaultdict(float) updates read
in insertion order. -/
def aggUpsert (l : List (String × Rat)) (k : String) (v : Rat) : List (String × Rat) :=
  match l with
  | [] => [(k, v)]
  | (k', v') :: t => if k' = k then (k', qAdd v' v) :: t else (k', v') :: aggUpsert t k v

/-- The aggregation loop shared by aggregate_for_bar_chart and
calculate_distribution: category defaults when the field is missing, rows
whose value does not convert to float are skipped. -/
def aggregateRows (data : List Row) (catField valField defaultCat : String) :
    List (String × Rat) :=
  data.foldl
    (fun agg r =>
      let category := pyStr ((assocGet r catField).getD (V.s defaultCat))
      match pyFloat ((assocGet r valField).getD (V.n 0)) with
      | some v => aggUpsert agg category v
      | none => agg)
    []

/-- Stable insertion step for sorting: x is placed after every element it
does not strictly beat, preserving input order among ties exactly as Python
sorted does. -/
def insSorted (lt : (String × Rat) → (String × Rat) → Bool) (x : String × Rat) :
    List (String × Rat) → List (String × Rat)
  | [] => [x]
  | y :: t => if lt x y then x :: y :: t else y :: insSorted lt x t

/-- Stable sort by the given strict comparison (insertion sort, which agrees
with Python sorted for any strict weak order). -/
def stableSortBy (lt : (String × Rat) → (String × Rat) → Bool)
    (l : List (String × Rat)) : List (String × Rat) :=
  l.foldl (fun acc x => insSorted lt x acc) []

/-- ChartDataBuilder.aggregate_for_bar_chart. -/
def aggregateForBarChart (data : List Row) (labelField valueField sortBy : String)
    (ascending : Bool) (limit : Nat) : Option ChartData :=
  let aggregated := aggregateRows data labelField valueField "Unknown"
  let lt : (String × Rat) → (String × Rat) → Bool :=
    if sortBy = "value" then
      (if ascending then fun a b => qLt a.2 b.2 else fun a b => qLt b.2 a.2)
    else
      (if ascending then fun a b => a.1 < b.1 else fun a b => b.1 < a.1)
  let sortedItems := (stableSortBy lt aggregated).take limit
  if sortedItems.length < MIN_DATA_POINTS then none
  else
    let labels := sortedItems.map Prod.fst
    let values := sortedItems.map Prod.snd
    some
      { chart_type := "bar"
        title := pyTitle valueField ++ " by " ++ pyTitle labelField
        labels := labels
        values := values
        x_axis_label := some (pyTitle labelField)
        y_axis_label := some (pyTitle valueField)
        colors := DEFAULT_COLORS.take values.length
        description := none }

/-- ChartDataBuilder.aggregate_for_line_chart. -/
def aggregateForLineChart (data : List Row) (timeField valueField : String)
    (limit : Nat) : Option ChartData :=
  let pts := data.filterMap
    (fun r =>
      match getPy r timeField, getPy r valueField with
      | some tv, some vv =>
        match pyFloat vv with
        | some q => some (pyStr tv, q)
        | none => none
      | _, _ => none)
  if pts.length < MIN_DATA_POINTS then none
  else
    let limited := pts.take limit
    some
      { chart_type := "line"
        title := pyTitle valueField ++ " Over Time"
        labels := limited.map Prod.fst
        values := limited.map Prod.snd
        x_axis_label := some (pyTitle timeField)
        y_axis_label := some (pyTitle valueField)
        colors := DEFAULT_COLORS.take 1
        description := none }

/-- ChartDataBuilder.calculate_distribution: aggregate by category, drop out
if the total is zero, sort descending by value, truncate, convert to
percentage shares rounded to two decimals. -/
def calculateDistribution (data : List Row) (categoryField valueField : String)
    (limit : Nat) : Option ChartData :=
  let aggregated := aggregateRows data categoryField valueField "Other"
  let total : Rat := qSum (aggregated.map Prod.snd)
  if total = 0 then none
  else
    let sortedItems := (stableSortBy (fun a b => qLt b.2 a.2) aggregated).take limit
    let percentages := sortedItems.map (fun p => (p.1, qMul (qDiv p.2 total) 100))
    if percentages.length < MIN_DATA_POINTS then none
    else
      some
        { chart_type := "pie"
          title := pyTitle valueField ++ " Distribution by " ++ categoryField
          labels := percentages.map Prod.fst
          values := percentages.map (fun p => round2 p.2)
          x_axis_label := none
          y_axis_label := none
          colors := DEFAULT_COLORS.take percentages.length
          description := some ("Total: " ++ fmtCommas0 total) }

/-- The opening marker of an embedded chart block. -/
def openMarker : List Char :=
  ['{', 'C', 'H', 'A', 'R', 'T', '_', 'D', 'A', 'T', 'A', '}']

/-- The closing marker of an embedded chart block. -/
def closeMarker : List Char :=
  ['{', '/', 'C', 'H', 'A', 'R', 'T', '_', 'D', 'A', 'T', 'A', '}']

/-- Drop leading regex whitespace. -/
def dropWs (cs : List Char) : List Char := cs.dropWhile isPyWs

/-- After a candidate closing brace of the lazy JSON group: skip whitespace
greedily and require the closing marker right there, returning the remainder
of the text after it. -/
def stripClose (cs : List Char) : Option (List Char) :=
  let r := dropWs cs
  if closeMarker.isPrefixOf r then some (r.drop closeMarker.length) else none

/-- The lazy scan of the parse regex inside the braced group: the group ends
at the first closing brace that is followed (after whitespace) by the closing
marker; any other character, including other closing braces, extends the
group.  Returns the group interior and the text after the whole match. -/
def scanBody : List Char → List Char → Option (List Char × List Char)
  | _, [] => none
  | acc, c :: rest =>
    if c = '}' then
      match stripClose rest with
      | some r => some (acc.reverse, r)
      | none => scanBody (c :: acc) rest
    else scanBody (c :: acc) rest

/-- Attempt the parse regex of _parse_chart_from_response at this exact
position: the opening marker, greedy whitespace, an opening brace, the lazy
group, whitespace, the closing marker.  Returns group 1 on success. -/
def tryAt (cs : List Char) : Option (List Char) :=
  if openMarker.isPrefixOf cs then
    match dropWs (cs.drop openMarker.length) with
    | c :: body =>
      if c = '{' then
        match scanBody [] body with
        | some (mid, _) => some ('{' :: mid ++ ['}'])
        | none => none
      else none
    | [] => none
  else none

/-- re.search of the parse regex: try each start position left to right and
return group 1 of the first match. -/
def searchParse : List Char → Option (List Char)
  | [] => none
  | c :: rest =>
    match tryAt (c :: rest) with
    | some g => some g
    | none => searchParse rest

/-- Does a parsed chart dictionary carry the three required fields with a
valid chart_type - the validation block of _parse_chart_from_response. -/
def requiredFieldsOk (flds : List (String × Json)) : Bool :=
  assocHasKey flds "chart_type" && assocHasKey flds "labels" && assocHasKey flds "values" &&
    (match assocGet flds "chart_type" with
     | some (Json.str t) => t = "bar" || t = "line" || t = "pie"
     | _ => false)

/-- agent_orchestrator._parse_chart_from_response: find the first marker
block, json-parse its braced group, and accept it only when it is a
dictionary carrying chart_type, labels and values with a valid chart_type.
Non-dictionary parses and parse failures yield none via the caught
exceptions, never an error. -/
def parseChartFromResponse (text : List Char) : Option Json :=
  match searchParse text with
  | none => none
  | some g =>
    match jsonLoads g with
    | some (Json.obj flds) => if requiredFieldsOk flds then some (Json.obj flds) else none
    | _ => none

/-- Find the first occurrence of the closing marker anywhere ahead and return
the text after it - the lazy part of the substitution regex of
_clean_chart_markers. -/
def findClose : List Char → Option (List Char)
  | [] => none
  | c :: rest =>
    if closeMarker.isPrefixOf (c :: rest) then some ((c :: rest).drop closeMarker.length)
    else findClose rest

/-- Fuelled body of the substitution: each occurrence of opening marker,
anything lazily up to the first closing marker, and trailing whitespace is
deleted; all other characters pass through.  Every recursive call is on a
strictly shorter list, so the fuel supplied by cleanSub never runs out and
the zero-fuel fallback is unreachable on nonempty input. -/
def cleanSubF : Nat → List Char → List Char
  | 0, cs => cs
  | _ + 1, [] => []
  | fuel + 1, c :: rest =>
    if openMarker.isPrefixOf (c :: rest) then
      match findClose ((c :: rest).drop openMarker.length) with
      | some r => cleanSubF fuel (dropWs r)
      | none => c :: cleanSubF fuel rest
    else c :: cleanSubF fuel rest

/-- re.sub of the clean regex with the empty string. -/
def cleanSub (cs : List Char) : List Char := cleanSubF cs.length cs

/-- Python str.strip with the standard whitespace set. -/
def pyStrip (cs : List Char) : List Char :=
  ((dropWs ((dropWs cs).reverse)).reverse)

/-- agent_orchestrator._clean_chart_markers: delete every marker block and
strip surrounding whitespace from the result (the strip runs even when no
block was found). -/
def cleanChartMarkers (text : List Char) : List Char :=
  pyStrip (cleanSub text)

/-- Chat Session lifecycle status. -/
inductive SessStatus where
  | active
  | closed
  | expired
  deriving DecidableEq, Repr

/-- Rendering used in the inactive-session error message
(status.lower() in chat_message._validate_session). -/
def statusLower (st : SessStatus) : String :=
  match st with
  | SessStatus.active => "active"
  | SessStatus.closed => "closed"
  | SessStatus.expired => "expired"

/-- The fields of a Chat Session that the validated transitions read. -/
structure Sess where
  status : SessStatus
  user : String
  deriving DecidableEq, Repr

/-- ChatSession.validate as run on save: _validate_user_ownership rejects a
changed owner, then _validate_status_transition rejects reactivating an
expired session; every other transition passes.  The old state is none for a
fresh insert. -/
def sessionSave (old : Option Sess) (new : Sess) : Except String Sess :=
  match old with
  | none => Except.ok new
  | some o =>
    if o.user ≠ new.user then
      Except.error "Session owner cannot be changed after creation"
    else if o.status = SessStatus.expired ∧ new.status = SessStatus.active then
      Except.error "Cannot reactivate an expired session"
    else Except.ok new

/-- ChatSession.close_session: refuses on an expired session, otherwise sets
the status to Closed and saves. -/
def closeSession (s : Sess) : Except String Sess :=
  if s.status = SessStatus.expired then
    Except.error "Cannot close an expired session"
  else sessionSave (some s) { s with status := SessStatus.closed }

/-- ChatSession.expire_session: only an active session becomes expired. -/
def expireSession (s : Sess) : Sess :=
  if s.status = SessStatus.active then { s with status := SessStatus.expired } else s

/-- A created Chat Message record. -/
structure ChatMessageRec where
  session_id : String
  role : String
  content : List Char
  deriving DecidableEq, Repr

/-- chat_message._validate_session followed by _validate_content_length: the
session must exist in the store with status Active as read at creation time,
and the content must not exceed 50000 characters. -/
def validateMessage (store : List (String × SessStatus)) (session_id : String)
    (content : List Char) : Except String Unit :=
  match assocGet store session_id with
  | none => Except.error ("Chat session not found: " ++ session_id)
  | some st =>
    if st ≠ SessStatus.active then
      Except.error ("Cannot add messages to a " ++ statusLower st ++ " session")
    else if 50000 < content.length then
      Except.error "Message content exceeds maximum length of 50000 characters"
    else Except.ok ()

/-- ChatMessage.create_message: build the document and insert it, which runs
validate; the message exists exactly when validation passes. -/
def createMessage (store : List (String × SessStatus)) (session_id role : String)
    (content : List Char) : Except String ChatMessageRec :=
  match validateMessage store session_id content with
  | Except.error e => Except.error e
  | Except.ok _ =>
    Except.ok { session_id := session_id, role := role, content := content }

/-- A tool argument dictionary, as decoded from the model's JSON argument
string. -/
abbrev Args := List (String × V)

/-- The apostrophe character, spelled out for the literal error texts. -/
def apos : String := (Char.ofNat 39).toString

/-- Substring test, modelling the Python in operator on strings. -/
def hasSubstr (pat : List Char) : List Char → Bool
  | [] => pat.isPrefixOf []
  | c :: t => pat.isPrefixOf (c :: t) || hasSubstr pat t

/-- Python str.lower on the ASCII texts involved. -/
def pyLower (s : String) : String := String.mk (s.data.map Char.toLower)

/-- agent_orchestrator._get_user_friendly_error: classify the lowered error
text by substring into one of five fixed user-facing messages. -/
def friendlyError (msg : String) : String :=
  let e := (pyLower msg).data
  if hasSubstr "api key".data e then
    "The AI service is not properly configured. Please contact your administrator."
  else if hasSubstr "rate limit".data e then
    "The AI service is currently busy. Please try again in a few moments."
  else if hasSubstr "connection".data e || hasSubstr "timeout".data e then
    "Unable to connect to the AI service. Please check your internet connection and try again."
  else if hasSubstr "permission".data e then
    "You don" ++ apos ++ "t have permission to access the requested data."
  else
    "An error occurred while processing your request. Please try again or rephrase your question."

/-- The key fragments audit_logger._sanitize_parameters redacts. -/
def sensitiveKeys : List String :=
  ["api_key", "password", "secret", "token", "credential", "authorization", "auth"]

/-- audit_logger._sanitize_parameters on a flat dictionary: values under
sensitive-looking keys are replaced by the redaction placeholder. -/
def sanitizeParams (ps : Args) : Args :=
  ps.map (fun p =>
    if sensitiveKeys.any (fun sk => hasSubstr sk.data (pyLower p.1).data) then
      (p.1, V.s "[REDACTED]")
    else p)

/-- Truthiness of the audit log id as tested by with_audit_logging. -/
def auditTruthy (a : Option String) : Bool :=
  match a with
  | some s => s ≠ ""
  | none => false

/-- The scalar stored when the orchestrator injects the audit log id, which
is None when audit creation failed. -/
def optV (a : Option String) : V :=
  match a with
  | some s => V.s s
  | none => V.null

/-- Outcome of calling the wrapped tool function with the injected keyword
arguments.  ok is a normal return; permDenied is a PermissionDeniedError
raised by the permission or company decorator, which sits outside the audit
decorator, so no tool-call record is written for it; raised is any other
exception, which the audit decorator observes and records before it
propagates to execute_tool. -/
inductive ToolApp where
  | ok (r : String)
  | permDenied (m : String)
  | raised (m : String)

/-- The result dictionary execute_tool returns to the orchestrator. -/
structure ToolResult where
  result : String
  status : String
  deriving DecidableEq, Repr

/-- The tool role message fed back to the model for one tool call. -/
structure ToolMsg where
  tool_call_id : String
  content : String
  deriving DecidableEq, Repr

/-- One entry of the data_accessed trail: the tool name and the argument
dictionary object as it stands after execute_tool returns. -/
structure DataEntry where
  tool : String
  arguments : Args
  deriving DecidableEq, Repr

/-- Observable persistence events of one process_message turn: the audit
record creation, the two model calls, each tool-call record, the two message
inserts and the single finalize write of _update_audit_log with the field
values it passes. -/
inductive Ev where
  | auditCreate
  | modelCall1
  | modelCall2 (toolMsgs : List ToolMsg)
  | toolRecord (tool_name status : String) (params : Args)
  | msgInsert (role : String)
  | finalize (summary : Option String) (dataAccessed : Option (List DataEntry))
      (perm errOccurred : Bool) (errMsg : Option String) (tools : Nat)
  deriving DecidableEq, Repr

/-- One requested tool call from the first model response; argsRaw is the
outcome of json.loads on the argument string. -/
structure RawToolCall where
  id : String
  name : String
  argsRaw : Except String Args

/-- The first model response: direct content and requested tool calls. -/
structure AssistantMsg where
  content : Option String
  tool_calls : List RawToolCall

/-- The environment a turn runs against: outcomes of every fallible external
step (context fetch, client configuration, the two model calls, message
inserts), the audit store outcome, the tool registry, token usage and the
measured wall time. -/
structure Env where
  auditId : Option String
  ctx : Except String Unit
  clientOk : Except String Unit
  call1 : Except String AssistantMsg
  tokens1 : Nat
  call2 : List ToolMsg → Except String (Option String)
  tokens2 : Nat
  tools : String → Option (Args → ToolApp)
  insertUser : Except String Unit
  insertAssistant : Except String Unit
  timeMs : Nat

/-- agent_orchestrator.execute_tool: an unknown name returns an error result
at once, before any mutation or logging; a known tool has the three context
keys injected into the argument dictionary in place, is invoked, and its
outcome is mapped to a status, with a tool-call record written by the audit
decorator when both identifiers are truthy and the call reached it.  Returns
the result, the argument dictionary object after the call, and the records
written. -/
def executeTool (tools : String → Option (Args → ToolApp)) (tool_name : String)
    (arguments : Args) (session_id : String) (audit_log_id : Option String)
    (user : String) : ToolResult × Args × List Ev :=
  match tools tool_name with
  | none =>
    ({ result := "Error: Unknown tool " ++ apos ++ tool_name ++ apos, status := "error" },
     arguments, [])
  | some fn =>
    let injected :=
      assocSet (assocSet (assocSet arguments "session_id" (V.s session_id))
        "audit_log_id" (optV audit_log_id)) "user" (V.s user)
    let logged :=
      sanitizeParams
        (assocRemove (assocRemove (assocRemove injected "session_id") "audit_log_id") "user")
    let canLog := session_id ≠ "" ∧ auditTruthy audit_log_id
    match fn injected with
    | ToolApp.ok r =>
      ({ result := r, status := "success" }, injected,
       if canLog then [Ev.toolRecord tool_name "success" logged] else [])
    | ToolApp.permDenied m =>
      ({ result := "Permission denied: " ++ m, status := "permission_denied" }, injected, [])
    | ToolApp.raised m =>
      ({ result := "Error executing " ++ tool_name ++ ": " ++ m, status := "error" }, injected,
       if canLog then [Ev.toolRecord tool_name "error" logged] else [])

/-- Accumulated state of the tool-call loop in process_message. -/
structure LoopSt where
  toolMsgs : List ToolMsg
  data : List DataEntry
  anyDenied : Bool
  count : Nat
  evs : List Ev
  deriving DecidableEq, Repr

/-- The tool-call loop of process_message: decode each argument string (a
decode failure aborts the whole turn with the loop state reached so far),
execute the tool, append the result message, append the same argument
dictionary object to the data-accessed trail, flip the permission flag on a
denial, and continue with the remaining calls. -/
def runTools (tools : String → Option (Args → ToolApp)) (session_id : String)
    (audit_log_id : Option String) (user : String) :
    List RawToolCall → LoopSt → Except (String × LoopSt) LoopSt
  | [], st => Except.ok st
  | tc :: rest, st =>
    match tc.argsRaw with
    | Except.error e => Except.error (e, st)
    | Except.ok args =>
      let r := executeTool tools tc.name args session_id audit_log_id user
      runTools tools session_id audit_log_id user rest
        { toolMsgs := st.toolMsgs ++ [{ tool_call_id := tc.id, content := r.1.result }]
          data := st.data ++ [{ tool := tc.name, arguments := r.2.1 }]
          anyDenied := st.anyDenied || (r.1.status = "permission_denied")
          count := st.count + 1
          evs := st.evs ++ r.2.2 }

/-- The answer data the try block of process_message produces when it
reaches the end. -/
structure MainOut where
  response : Option String
  toolsCalled : Nat
  data : List DataEntry
  perm : Bool
  tokens : Nat
  deriving Repr

/-- The two message inserts at the end of the try block; a failure carries
the tool-call count and events reached so far into the except branch. -/
def insertsThen (env : Env) (out : MainOut) (evs : List Ev) :
    Except (String × Nat × List Ev) (MainOut × List Ev) :=
  match env.insertUser with
  | Except.error e => Except.error (e, out.toolsCalled, evs)
  | Except.ok _ =>
    match env.insertAssistant with
    | Except.error e => Except.error (e, out.toolsCalled, evs ++ [Ev.msgInsert "user"])
    | Except.ok _ =>
      Except.ok (out, evs ++ [Ev.msgInsert "user", Ev.msgInsert "assistant"])

/-- The try block of process_message after the audit record was created:
context fetch, client configuration, first model call, the optional
tool-call round with its second model call, then the two message inserts.
An error result carries the message, the tool-call count and the events
already produced. -/
def mainFlow (env : Env) (session_id user : String) :
    Except (String × Nat × List Ev) (MainOut × List Ev) :=
  match env.ctx with
  | Except.error e => Except.error (e, 0, [])
  | Except.ok _ =>
  match env.clientOk with
  | Except.error e => Except.error (e, 0, [])
  | Except.ok _ =>
  match env.call1 with
  | Except.error e => Except.error (e, 0, [])
  | Except.ok am =>
  if am.tool_calls.isEmpty then
    insertsThen env
      { response := am.content, toolsCalled := 0, data := [], perm := true,
        tokens := env.tokens1 }
      [Ev.modelCall1]
  else
    match runTools env.tools session_id env.auditId user am.tool_calls
      { toolMsgs := [], data := [], anyDenied := false, count := 0, evs := [] } with
    | Except.error (e, st) => Except.error (e, st.count, Ev.modelCall1 :: st.evs)
    | Except.ok st =>
      match env.call2 st.toolMsgs with
      | Except.error e => Except.error (e, st.count, Ev.modelCall1 :: st.evs)
      | Except.ok c2 =>
        insertsThen env
          { response := c2, toolsCalled := st.count, data := st.data,
            perm := !st.anyDenied, tokens := env.tokens1 + env.tokens2 }
          (Ev.modelCall1 :: st.evs ++ [Ev.modelCall2 st.toolMsgs])

/-- Take a prefix of a string, modelling Python slicing for the response
summary truncation. -/
def strTake (n : Nat) (s : String) : String := String.mk (s.data.take n)

/-- The truncated response summary the success finalize stores: None for a
missing or empty response, the first 500 characters otherwise. -/
def summaryOf (r : Option String) : Option String :=
  match r with
  | some s => if s = "" then none else some (strTake 500 s)
  | none => none

/-- The field values _update_audit_log writes on the success path. -/
def successFinalizeEv (out : MainOut) : Ev :=
  Ev.finalize (summaryOf out.response) (some out.data) out.perm false none out.toolsCalled

/-- The field values _update_audit_log writes on the error path: the
summary, data trail, permission flag and tool count fall back to the
defaults of the helper, whatever the loop had accumulated. -/
def errorFinalizeEv (msg : String) : Ev :=
  Ev.finalize none none true true (if msg = "" then none else some msg) 0

/-- The structured result process_message returns to the caller. -/
structure PMResult where
  success : Bool
  response : Option String
  chart : Option Json
  processing_time_ms : Nat
  tools_called : Nat
  token_count : Option Nat
  error : Option String

/-- agent_orchestrator.process_message: create the audit record first (an
audit-store failure is swallowed and leaves no record), run the try block,
and on either outcome write the single finalize update (skipped inside
_update_audit_log when there is no record id), returning the structured
result with the chart extracted and the markers cleaned on success, or the
classified user-facing error message on failure. -/
def processMessage (env : Env) (session_id user_message user : String) :
    PMResult × List Ev :=
  let preEvs : List Ev :=
    match env.auditId with
    | some _ => [Ev.auditCreate]
    | none => []
  let finEvs : Ev → List Ev := fun e =>
    match env.auditId with
    | some _ => [e]
    | none => []
  match mainFlow env session_id user with
  | Except.ok (out, evs) =>
    ({ success := true
       response := out.response.map (fun s => String.mk (cleanChartMarkers s.data))
       chart := out.response.bind (fun s => parseChartFromResponse s.data)
       processing_time_ms := env.timeMs
       tools_called := out.toolsCalled
       token_count := some out.tokens
       error := none },
     preEvs ++ evs ++ finEvs (successFinalizeEv out))
  | Except.error (e, cnt, evs) =>
    ({ success := false
       response := some (friendlyError e)
       chart := none
       processing_time_ms := env.timeMs
       tools_called := cnt
       token_count := none
       error := some e },
     preEvs ++ evs ++ finEvs (errorFinalizeEv e))

/-- Is this event the audit record creation. -/
def isCreateEv (e : Ev) : Bool :=
  match e with
  | Ev.auditCreate => true
  | _ => false

/-- Is this event the finalize write of _update_audit_log. -/
def isFinalizeEv (e : Ev) : Bool :=
  match e with
  | Ev.finalize _ _ _ _ _ _ => true
  | _ => false

/-- Is this event a model call. -/
def isModelCallEv (e : Ev) : Bool :=
  match e with
  | Ev.modelCall1 => true
  | Ev.modelCall2 _ => true
  | _ => false

/-- Is this event a tool-call record. -/
def isToolRecordEv (e : Ev) : Bool :=
  match e with
  | Ev.toolRecord _ _ _ => true
  | _ => false

/-- The first finalize event of a trace, with its field values. -/
def findFinalize (evs : List Ev) : Option Ev := evs.find? isFinalizeEv

/-- Length of an array stored under a key of a parsed chart dictionary. -/
def jsonFieldLen (j : Json) (k : String) : Option Nat :=
  match j with
  | Json.obj flds =>
    match assocGet flds k with
    | some (Json.arr l) => some l.length
    | _ => none
  | _ => none

/-- The decoded arguments of a tool call whose argument string parsed. -/
def tcArgs (tc : RawToolCall) : Args :=
  match tc.argsRaw with
  | Except.ok a => a
  | Except.error _ => []

/-- The execute_tool outcome of one parsed tool call. -/
def tcExec (tools : String → Option (Args → ToolApp)) (sid : String)
    (aid : Option String) (user : String) (tc : RawToolCall) : ToolResult × Args × List Ev :=
  executeTool tools tc.name (tcArgs tc) sid aid user

/-- The tool message one parsed call contributes to the second model call. -/
def tcMsg (tools : String → Option (Args → ToolApp)) (sid : String)
    (aid : Option String) (user : String) (tc : RawToolCall) : ToolMsg :=
  { tool_call_id := tc.id, content := (tcExec tools sid aid user tc).1.result }

/-- The data-accessed entry one parsed call contributes. -/
def tcEntry (tools : String → Option (Args → ToolApp)) (sid : String)
    (aid : Option String) (user : String) (tc : RawToolCall) : DataEntry :=
  { tool := tc.name, arguments := (tcExec tools sid aid user tc).2.1 }

/-- Did this parsed call signal a permission denial. -/
def tcDenied (tools : String → Option (Args → ToolApp)) (sid : String)
    (aid : Option String) (user : String) (tc : RawToolCall) : Bool :=
  (tcExec tools sid aid user tc).1.status = "permission_denied"

/-- The tool-call records one parsed call writes. -/
def tcEvs (tools : String → Option (Args → ToolApp)) (sid : String)
    (aid : Option String) (user : String) (tc : RawToolCall) : List Ev :=
  (tcExec tools sid aid user tc).2.2

/-- Concrete rows of the pie distribution example from the spec. -/
def c9data : List Row :=
  [[("cat", V.s "A"), ("val", V.n 10)], [("cat", V.s "B"), ("val", V.n 30)]]

/-- The chart the source actually builds for the pie distribution example:
sorted descending by value. -/
def c9expected : ChartData :=
  { chart_type := "pie"
    title := "Val Distribution by cat"
    labels := ["B", "A"]
    values := [75, 25]
    x_axis_label := none
    y_axis_label := none
    colors := ["#2491eb", "#5e64ff"]
    description := some "Total: 40" }

/-- Two valid rows for the builder equal-length witness. -/
def c6rows : List Row :=
  [[("m", V.s "Jan"), ("v", V.n 10)], [("m", V.s "Feb"), ("v", V.n 20)]]

/-- The chart built from those rows. -/
def c6d : ChartData :=
  { chart_type := "bar"
    title := "V by M"
    labels := ["Jan", "Feb"]
    values := [10, 20]
    x_axis_label := none
    y_axis_label := none
    colors := ["#2491eb", "#5e64ff"]
    description := none }

/-- A braced chart group whose labels and values have different lengths. -/
def c6body : List Char :=
  '{' :: "\"chart_type\":\"bar\",\"labels\":[\"A\"],\"values\":[1,2]".data ++ ['}']

/-- A response text carrying that group between valid markers. -/
def c6text : List Char := openMarker ++ c6body ++ closeMarker

/-- The chart dictionary the extractor accepts for that text. -/
def c6json : Json :=
  Json.obj
    [("chart_type", Json.str "bar"),
     ("labels", Json.arr [Json.str "A"]),
     ("values", Json.arr [Json.num 1, Json.num 2])]

/-- The braced group interior of the spec extractor example. -/
def c7mid : List Char :=
  "\"chart_type\":\"line\",\"labels\":[\"Jan\",\"Feb\"],\"values\":[10,20]".data

/-- The fields json.loads produces for the spec extractor example. -/
def c7flds : List (String × Json) :=
  [("chart_type", Json.str "line"),
   ("labels", Json.arr [Json.str "Jan", Json.str "Feb"]),
   ("values", Json.arr [Json.num 10, Json.num 20])]

/-- A text with an opening marker, no closing marker and surrounding
whitespace: the source strips it, so the visible text differs from the
original. -/
def c7badText : List Char := " see ".data ++ openMarker ++ " oops ".data

/-- A registered revenue tool used by the witnesses. -/
def revenueFn : Args → ToolApp := fun _ => ToolApp.ok "Total Revenue: $100"

/-- A registry holding exactly the revenue tool. -/
def regW : String → Option (Args → ToolApp) :=
  fun n => if n = "get_revenue" then some revenueFn else none

/-- An environment whose first model call requests one tool call naming a
tool absent from the registry. -/
def envC10 : Env :=
  { auditId := some "AUD-1"
    ctx := Except.ok ()
    clientOk := Except.ok ()
    call1 := Except.ok
      { content := none
        tool_calls := [{ id := "t1", name := "bogus_tool",
                         argsRaw := Except.ok [("filter", V.s "x")] }] }
    tokens1 := 5
    call2 := fun _ => Except.ok (some "answer")
    tokens2 := 7
    tools := fun _ => none
    insertUser := Except.ok ()
    insertAssistant := Except.ok ()
    timeMs := 42 }

/-- A tool that raises a permission denial in its permission decorator. -/
def deniedFn : Args → ToolApp :=
  fun _ => ToolApp.permDenied "You do not have read permission for Sales Invoice"

/-- A registry with one denying tool and one succeeding tool. -/
def regC3 : String → Option (Args → ToolApp) :=
  fun n =>
    if n = "get_revenue" then some deniedFn
    else if n = "get_expenses" then some (fun _ => ToolApp.ok "Total Expenses: $40") else none

/-- First requested call: the denying tool. -/
def tcA : RawToolCall :=
  { id := "1", name := "get_revenue", argsRaw := Except.ok [("from_date", V.s "2024-01-01")] }

/-- Second requested call: the succeeding tool. -/
def tcB : RawToolCall :=
  { id := "2", name := "get_expenses", argsRaw := Except.ok [] }

/-- A first model response requesting both calls. -/
def amC3 : AssistantMsg := { content := none, tool_calls := [tcA, tcB] }

/-- An environment in which the first call is denied and the second
succeeds, and everything else goes through. -/
def envC3 : Env :=
  { auditId := some "AUD-3"
    ctx := Except.ok ()
    clientOk := Except.ok ()
    call1 := Except.ok amC3
    tokens1 := 3
    call2 := fun _ => Except.ok (some "final answer")
    tokens2 := 4
    tools := regC3
    insertUser := Except.ok ()
    insertAssistant := Except.ok ()
    timeMs := 10 }

/-- Peel one guarding conditional off an option equation. -/
theorem opt_ite_none {α : Type} {c : Prop} [Decidable c] {o : Option α} {d : α}
    (h : (if c then none else o) = some d) : o = some d := by
  by_cases hc : c
  · rw [if_pos hc] at h
    cases h
  · rwa [if_neg hc] at h

/-- Helper lemmas about the association-list primitives. -/
theorem assocGet_set_eq {α : Type} (l : List (String × α)) (k : String) (v : α) :
    assocGet (assocSet l k v) k = some v := by
  induction l with
  | nil => simp [assocSet, assocGet]
  | cons p t ih =>
    by_cases h : p.1 = k
    · simp [assocSet, assocGet, h]
    · simp [assocSet, assocGet, h, ih]

theorem assocGet_set_ne {α : Type} (l : List (String × α)) (k k' : String) (v : α)
    (h : k' ≠ k) : assocGet (assocSet l k v) k' = assocGet l k' := by
  induction l with
  | nil => simp [assocSet, assocGet, Ne.symm h]
  | cons p t ih =>
    obtain ⟨pk, pv⟩ := p
    by_cases hp : pk = k
    · simp [assocSet, assocGet, hp, Ne.symm h]
    · simp [assocSet, assocGet, hp, ih]

/-- Tool execution only ever writes tool-call records: never an audit
creation or a finalize write. -/
theorem executeTool_noCF (tools : String → Option (Args → ToolApp)) (name : String)
    (args : Args) (sid : String) (aid : Option String) (user : String) :
    ((executeTool tools name args sid aid user).2.2).all
      (fun e => !(isCreateEv e || isFinalizeEv e)) = true := by
  rcases htn : tools name with _ | fn
  · simp [executeTool, htn]
  · simp only [executeTool, htn]
    split
    · split <;> simp [isCreateEv, isFinalizeEv]
    · simp
    · split <;> simp [isCreateEv, isFinalizeEv]

/-- The tool loop preserves the absence of audit-creation and finalize
events in its accumulated trace, on both outcomes. -/
theorem runTools_noCF (tools : String → Option (Args → ToolApp)) (sid : String)
    (aid : Option String) (user : String) :
    ∀ (tcs : List RawToolCall) (st : LoopSt),
      st.evs.all (fun e => !(isCreateEv e || isFinalizeEv e)) = true →
      (∀ out, runTools tools sid aid user tcs st = Except.ok out →
        out.evs.all (fun e => !(isCreateEv e || isFinalizeEv e)) = true) ∧
      (∀ msg st', runTools tools sid aid user tcs st = Except.error (msg, st') →
        st'.evs.all (fun e => !(isCreateEv e || isFinalizeEv e)) = true) := by
  intro tcs
  induction tcs with
  | nil =>
    intro st hst
    constructor
    · intro out hout
      simp only [runTools, Except.ok.injEq] at hout
      subst hout
      exact hst
    · intro msg st' hbad
      simp [runTools] at hbad
  | cons tc rest ih =>
    intro st hst
    cases har : tc.argsRaw with
    | error e =>
      constructor
      · intro out hout
        simp [runTools, har] at hout
      · intro msg st' herr
        simp only [runTools, har, Except.error.injEq, Prod.mk.injEq] at herr
        rw [← herr.2]
        exact hst
    | ok args =>
      have hst2 : (st.evs ++ (executeTool tools tc.name args sid aid user).2.2).all
          (fun e => !(isCreateEv e || isFinalizeEv e)) = true := by
        rw [List.all_append, Bool.and_eq_true]
        exact ⟨hst, executeTool_noCF tools tc.name args sid aid user⟩
      have := ih
        { toolMsgs := st.toolMsgs ++
            [{ tool_call_id := tc.id,
               content := (executeTool tools tc.name args sid aid user).1.result }]
          data := st.data ++
            [{ tool := tc.name,
               arguments := (executeTool tools tc.name args sid aid user).2.1 }]
          anyDenied := st.anyDenied ||
            ((executeTool tools tc.name args sid aid user).1.status = "permission_denied")
          count := st.count + 1
          evs := st.evs ++ (executeTool tools tc.name args sid aid user).2.2 } hst2
      constructor
      · intro out hout
        simp only [runTools, har] at hout
        exact this.1 out hout
      · intro msg st' herr
        simp only [runTools, har] at herr
        exact this.2 msg st' herr

/-- The closing message inserts add only message events, preserving the
absence of audit-creation and finalize events, on both outcomes. -/
theorem insertsThen_noCF (env : Env) (out : MainOut) (evs : List Ev)
    (h : evs.all (fun e => !(isCreateEv e || isFinalizeEv e)) = true) :
    (∀ o evs2, insertsThen env out evs = Except.ok (o, evs2) →
      evs2.all (fun e => !(isCreateEv e || isFinalizeEv e)) = true) ∧
    (∀ m n evs2, insertsThen env out evs = Except.error (m, n, evs2) →
      evs2.all (fun e => !(isCreateEv e || isFinalizeEv e)) = true) := by
  constructor
  · intro o evs2 hok
    unfold insertsThen at hok
    cases hiu : env.insertUser with
    | error e => rw [hiu] at hok; cases hok
    | ok _ =>
      rw [hiu] at hok
      cases hia : env.insertAssistant with
      | error e => rw [hia] at hok; cases hok
      | ok _ =>
        rw [hia] at hok
        simp only [Except.ok.injEq, Prod.mk.injEq] at hok
        rw [← hok.2, List.all_append, Bool.and_eq_true]
        exact ⟨h, by simp [isCreateEv, isFinalizeEv]⟩
  · intro m n evs2 herr
    unfold insertsThen at herr
    cases hiu : env.insertUser with
    | error e =>
      rw [hiu] at herr
      simp only [Except.error.injEq, Prod.mk.injEq] at herr
      rw [← herr.2.2]
      exact h
    | ok _ =>
      rw [hiu] at herr
      cases hia : env.insertAssistant with
      | error e =>
        rw [hia] at herr
        simp only [Except.error.injEq, Prod.mk.injEq] at herr
        rw [← herr.2.2, List.all_append, Bool.and_eq_true]
        exact ⟨h, by simp [isCreateEv, isFinalizeEv]⟩
      | ok _ => rw [hia] at herr; cases herr

/-- The whole try block produces no audit-creation and no finalize events,
on both outcomes: those are written only around it. -/
theorem mainFlow_noCF (env : Env) (sid user : String) :
    (∀ out evs, mainFlow env sid user = Except.ok (out, evs) →
      evs.all (fun e => !(isCreateEv e || isFinalizeEv e)) = true) ∧
    (∀ m n evs, mainFlow env sid user = Except.error (m, n, evs) →
      evs.all (fun e => !(isCreateEv e || isFinalizeEv e)) = true) := by
  constructor
  · intro out evs h
    unfold mainFlow at h
    split at h
    · simp at h
    · split at h
      · simp at h
      · split at h
        · simp at h
        · split at h
          · exact (insertsThen_noCF env _ _ (by simp [isCreateEv, isFinalizeEv])).1
              out evs h
          · split at h
            · simp at h
            · rename_i st hrt
              split at h
              · simp at h
              · rename_i c2 hc2
                have hstall := (runTools_noCF env.tools sid env.auditId user
                  _ _ (by rfl)).1 st hrt
                have hall : (Ev.modelCall1 :: st.evs ++
                    [Ev.modelCall2 st.toolMsgs]).all
                    (fun e => !(isCreateEv e || isFinalizeEv e)) = true := by
                  simp only [List.cons_append, List.all_cons, List.all_append,
                    Bool.and_eq_true]
                  exact ⟨by rfl, hstall, by simp [isCreateEv, isFinalizeEv]⟩
                exact (insertsThen_noCF env _ _ hall).1 out evs h
  · intro m n evs h
    unfold mainFlow at h
    split at h
    · simp only [Except.error.injEq, Prod.mk.injEq] at h
      rw [← h.2.2]
      rfl
    · split at h
      · simp only [Except.error.injEq, Prod.mk.injEq] at h
        rw [← h.2.2]
        rfl
      · split at h
        · simp only [Except.error.injEq, Prod.mk.injEq] at h
          rw [← h.2.2]
          rfl
        · split at h
          · exact (insertsThen_noCF env _ _ (by simp [isCreateEv, isFinalizeEv])).2
              m n evs h
          · split at h
            · rename_i e st hrt
              have hstall := (runTools_noCF env.tools sid env.auditId user
                _ _ (by rfl)).2 e st hrt
              simp only [Except.error.injEq, Prod.mk.injEq] at h
              rw [← h.2.2]
              simp only [List.all_cons, Bool.and_eq_true]
              exact ⟨by rfl, hstall⟩
            · rename_i st hrt
              split at h
              · rename_i e hc2
                have hstall := (runTools_noCF env.tools sid env.auditId user
                  _ _ (by rfl)).1 st hrt
                simp only [Except.error.injEq, Prod.mk.injEq] at h
                rw [← h.2.2]
                simp only [List.all_cons, Bool.and_eq_true]
                exact ⟨by rfl, hstall⟩
              · rename_i c2 hc2
                have hstall := (runTools_noCF env.tools sid env.auditId user
                  _ _ (by rfl)).1 st hrt
                have hall : (Ev.modelCall1 :: st.evs ++
                    [Ev.modelCall2 st.toolMsgs]).all
                    (fun e => !(isCreateEv e || isFinalizeEv e)) = true := by
                  simp only [List.cons_append, List.all_cons, List.all_append,
                    Bool.and_eq_true]
                  exact ⟨by rfl, hstall, by simp [isCreateEv, isFinalizeEv]⟩
                exact (insertsThen_noCF env _ _ hall).2 m n evs h

/-- A trace free of audit-creation and finalize events filters to nothing
under either predicate. -/
theorem filter_nil_of_noCF {l : List Ev}
    (h : l.all (fun e => !(isCreateEv e || isFinalizeEv e)) = true) :
    l.filter isCreateEv = [] ∧ l.filter isFinalizeEv = [] := by
  rw [List.all_eq_true] at h
  constructor
  · rw [List.filter_eq_nil_iff]
    intro e he
    have := h e he
    simp only [Bool.not_eq_true', Bool.or_eq_false_iff] at this
    simp [this.1]
  · rw [List.filter_eq_nil_iff]
    intro e he
    have := h e he
    simp only [Bool.not_eq_true', Bool.or_eq_false_iff] at this
    simp [this.2]

/-- C1: whenever the audit store accepted the query record, every run of
process_message writes exactly one audit-record creation and exactly one
finalize update, on success and on failure alike, and the creation is the
first persistence event of the turn, before any model call. -/
theorem c1_audit_record_writes (env : Env) (session_id user_message user a : String)
    (h : env.auditId = some a) :
    ((processMessage env session_id user_message user).2.filter isCreateEv).length = 1 ∧
    ((processMessage env session_id user_message user).2.filter isFinalizeEv).length = 1 ∧
    (processMessage env session_id user_message user).2.head? = some Ev.auditCreate := by
  unfold processMessage
  cases hm : mainFlow env session_id user with
  | ok p =>
    obtain ⟨out, evs⟩ := p
    have hall := (mainFlow_noCF env session_id user).1 out evs hm
    obtain ⟨hc, hf⟩ := filter_nil_of_noCF hall
    simp only [h]
    refine ⟨?_, ?_, ?_⟩
    · simp [List.filter_append, hc, isCreateEv, successFinalizeEv]
    · simp [List.filter_append, hf, isFinalizeEv, successFinalizeEv]
    · rfl
  | error p =>
    obtain ⟨e, cnt, evs⟩ := p
    have hall := (mainFlow_noCF env session_id user).2 e cnt evs hm
    obtain ⟨hc, hf⟩ := filter_nil_of_noCF hall
    simp only [h]
    refine ⟨?_, ?_, ?_⟩
    · simp [List.filter_append, hc, isCreateEv, errorFinalizeEv]
    · simp [List.filter_append, hf, isFinalizeEv, errorFinalizeEv]
    · rfl

/-- C1 witness: the statement applied to a concrete environment with a
created audit record. -/
theorem c1_witness :
    ((processMessage envC10 "s" "m" "u").2.filter isCreateEv).length = 1 ∧
    ((processMessage envC10 "s" "m" "u").2.filter isFinalizeEv).length = 1 ∧
    (processMessage envC10 "s" "m" "u").2.head? = some Ev.auditCreate :=
  c1_audit_record_writes envC10 "s" "m" "u" "AUD-1" rfl

/-- When every argument string parses, the tool loop succeeds and its
outcome is the pointwise map of the per-call functions over the requested
calls: every call is executed, in order, none aborts the round. -/
theorem runTools_ok_of_parses (tools : String → Option (Args → ToolApp)) (sid : String)
    (aid : Option String) (user : String) :
    ∀ (tcs : List RawToolCall) (st : LoopSt),
      (∀ tc ∈ tcs, (tc.argsRaw).isOk = true) →
      runTools tools sid aid user tcs st = Except.ok
        { toolMsgs := st.toolMsgs ++ tcs.map (tcMsg tools sid aid user)
          data := st.data ++ tcs.map (tcEntry tools sid aid user)
          anyDenied := st.anyDenied || tcs.any (tcDenied tools sid aid user)
          count := st.count + tcs.length
          evs := st.evs ++ (tcs.map (tcEvs tools sid aid user)).flatten } := by
  intro tcs
  induction tcs with
  | nil =>
    intro st _
    simp [runTools]
  | cons tc rest ih =>
    intro st hp
    have h1 : tc.argsRaw.isOk = true := hp tc (List.mem_cons_self _ _)
    obtain ⟨args, ha⟩ : ∃ x, tc.argsRaw = Except.ok x := by
      cases harr : tc.argsRaw with
      | error e =>
        rw [harr] at h1
        simp [Except.isOk, Except.toBool] at h1
      | ok x => exact ⟨x, rfl⟩
    simp only [runTools, ha]
    rw [ih _ (fun t ht => hp t (List.mem_cons_of_mem _ ht))]
    simp only [Except.ok.injEq, LoopSt.mk.injEq]
    refine ⟨?_, ?_, ?_, ?_, ?_⟩
    · simp [tcMsg, tcExec, tcArgs, ha, List.append_assoc]
    · simp [tcEntry, tcExec, tcArgs, ha, List.append_assoc]
    · simp [tcDenied, tcExec, tcArgs, ha, Bool.or_assoc]
    · simp only [List.length_cons]
      omega
    · simp [tcEvs, tcExec, tcArgs, ha, List.append_assoc]

/-- Searching past a finalize-free prefix. -/
theorem find?_append_none {l1 l2 : List Ev}
    (h : ∀ e ∈ l1, isFinalizeEv e = false) :
    List.find? isFinalizeEv (l1 ++ l2) = List.find? isFinalizeEv l2 := by
  induction l1 with
  | nil => rfl
  | cons a t ih =>
    have ha := h a (List.mem_cons_self _ _)
    simp only [List.cons_append, List.find?_cons, ha]
    exact ih (fun e he => h e (List.mem_cons_of_mem _ he))

/-- C3: when some requested tool call is denied (and the rest of the turn
goes through), every requested call is still executed, the denial text is
fed back to the second model call among the tool results, the finalize
update records the permission flag as false with the full tool-call count,
and the turn returns success. -/
theorem c3_permission_denied_flow (env : Env) (sid msg user a : String)
    (am : AssistantMsg) (tc : RawToolCall)
    (h : env.auditId = some a)
    (hctx : env.ctx = Except.ok ())
    (hcl : env.clientOk = Except.ok ())
    (h1 : env.call1 = Except.ok am)
    (hparse : ∀ t ∈ am.tool_calls, (t.argsRaw).isOk = true)
    (htc : tc ∈ am.tool_calls)
    (hdenied : tcDenied env.tools sid (some a) user tc = true)
    (hc2 : ∃ c, env.call2 (am.tool_calls.map (tcMsg env.tools sid (some a) user)) =
      Except.ok c)
    (hiu : env.insertUser = Except.ok ())
    (hia : env.insertAssistant = Except.ok ()) :
    (processMessage env sid msg user).1.success = true ∧
    (processMessage env sid msg user).1.tools_called = am.tool_calls.length ∧
    Ev.modelCall2 (am.tool_calls.map (tcMsg env.tools sid (some a) user)) ∈
      (processMessage env sid msg user).2 ∧
    tcMsg env.tools sid (some a) user tc ∈
      am.tool_calls.map (tcMsg env.tools sid (some a) user) ∧
    (∃ summary, findFinalize (processMessage env sid msg user).2 = some
      (Ev.finalize summary
        (some (am.tool_calls.map (tcEntry env.tools sid (some a) user)))
        false false none am.tool_calls.length)) := by
  obtain ⟨c2, hc2⟩ := hc2
  have hne : am.tool_calls ≠ [] := by
    intro hnil
    rw [hnil] at htc
    cases htc
  have hemp : am.tool_calls.isEmpty = false := by
    cases hl : am.tool_calls with
    | nil => exact absurd hl hne
    | cons x xs => rfl
  have hany : am.tool_calls.any (tcDenied env.tools sid (some a) user) = true :=
    List.any_eq_true.mpr ⟨tc, htc, hdenied⟩
  have hrt := runTools_ok_of_parses env.tools sid (some a) user am.tool_calls
    { toolMsgs := [], data := [], anyDenied := false, count := 0, evs := [] } hparse
  have hmf : mainFlow env sid user = Except.ok
      ({ response := c2,
         toolsCalled := am.tool_calls.length,
         data := am.tool_calls.map (tcEntry env.tools sid (some a) user),
         perm := false,
         tokens := env.tokens1 + env.tokens2 },
       Ev.modelCall1 ::
         (am.tool_calls.map (tcEvs env.tools sid (some a) user)).flatten ++
         [Ev.modelCall2 (am.tool_calls.map (tcMsg env.tools sid (some a) user)),
          Ev.msgInsert "user", Ev.msgInsert "assistant"]) := by
    unfold mainFlow
    simp only [hctx, hcl, h1, hemp, Bool.false_eq_true, if_false, h]
    rw [hrt]
    simp only [List.nil_append, Nat.zero_add]
    rw [hc2]
    unfold insertsThen
    simp only [hiu, hia, hany, Bool.false_or, Bool.not_true]
    simp [List.append_assoc]
  have hallevs := (mainFlow_noCF env sid user).1 _ _ hmf
  have hfinfree : ∀ e ∈ Ev.modelCall1 ::
      (am.tool_calls.map (tcEvs env.tools sid (some a) user)).flatten ++
      [Ev.modelCall2 (am.tool_calls.map (tcMsg env.tools sid (some a) user)),
       Ev.msgInsert "user", Ev.msgInsert "assistant"], isFinalizeEv e = false := by
    intro e he
    have := List.all_eq_true.mp hallevs e he
    simp only [Bool.not_eq_true', Bool.or_eq_false_iff] at this
    exact this.2
  unfold processMessage
  simp only [hmf, h]
  refine ⟨?_, ?_, ?_, ?_, ?_⟩
  · trivial
  · trivial
  · simp [List.mem_append, List.mem_cons]
  · exact List.mem_map_of_mem _ htc
  · refine ⟨summaryOf c2, ?_⟩
    have hflat : ∀ e ∈ (am.tool_calls.map (tcEvs env.tools sid (some a) user)).flatten,
        isFinalizeEv e = false :=
      fun e he => hfinfree e (List.mem_cons_of_mem _ (List.mem_append_left _ he))
    unfold findFinalize
    simp only [List.cons_append, List.append_assoc, List.nil_append]
    rw [List.find?_cons_of_neg _ (by simp [isFinalizeEv]),
      List.find?_cons_of_neg _ (by simp [isFinalizeEv]),
      find?_append_none hflat,
      List.find?_cons_of_neg _ (by simp [isFinalizeEv]),
      List.find?_cons_of_neg _ (by simp [isFinalizeEv]),
      List.find?_cons_of_neg _ (by simp [isFinalizeEv])]
    rfl

/-- C3 witness: the statement at a concrete environment whose first call is
denied and whose second call succeeds. -/
theorem c3_witness :
    (processMessage envC3 "s" "m" "u").1.success = true ∧
    (processMessage envC3 "s" "m" "u").1.tools_called = amC3.tool_calls.length ∧
    Ev.modelCall2 (amC3.tool_calls.map (tcMsg envC3.tools "s" (some "AUD-3") "u")) ∈
      (processMessage envC3 "s" "m" "u").2 ∧
    tcMsg envC3.tools "s" (some "AUD-3") "u" tcA ∈
      amC3.tool_calls.map (tcMsg envC3.tools "s" (some "AUD-3") "u") ∧
    (∃ summary, findFinalize (processMessage envC3 "s" "m" "u").2 = some
      (Ev.finalize summary
        (some (amC3.tool_calls.map (tcEntry envC3.tools "s" (some "AUD-3") "u")))
        false false none amC3.tool_calls.length)) :=
  c3_permission_denied_flow envC3 "s" "m" "u" "AUD-3" amC3 tcA rfl rfl rfl rfl
    (by
      intro t ht
      rcases List.mem_cons.mp ht with hh | ht2
      · rw [hh]
        rfl
      · rcases List.mem_cons.mp ht2 with hh | h0
        · rw [hh]
          rfl
        · cases h0)
    (List.mem_cons_self _ _)
    (by decide)
    ⟨some "final answer", rfl⟩
    rfl rfl

/-- The closing marker starts with an opening brace, so it is never a
prefix of a text starting with another character. -/
theorem closeMarker_not_pfx (c : Char) (l : List Char) (h : c ≠ '{') :
    closeMarker.isPrefixOf (c :: l) = false := by
  have hb : (('{' : Char) == c) = false := beq_eq_false_iff_ne.mpr (Ne.symm h)
  simp [closeMarker, List.isPrefixOf, hb]

/-- Likewise for the opening marker. -/
theorem openMarker_not_pfx (c : Char) (l : List Char) (h : c ≠ '{') :
    openMarker.isPrefixOf (c :: l) = false := by
  have hb : (('{' : Char) == c) = false := beq_eq_false_iff_ne.mpr (Ne.symm h)
  simp [openMarker, List.isPrefixOf, hb]

/-- A list is always a prefix of itself extended. -/
theorem isPrefixOf_self_append (l t : List Char) : l.isPrefixOf (l ++ t) = true := by
  induction l with
  | nil => simp [List.isPrefixOf]
  | cons a l ih => simp [List.isPrefixOf, ih]

/-- When the text has no closing-marker occurrence, no suffix of it starts
with the closing marker. -/
theorem no_close_suffix (t : List Char) (hfc : findClose t = none) :
    ∀ u, u <:+ t → closeMarker.isPrefixOf u = false := by
  induction t with
  | nil =>
    intro u hu
    rw [List.suffix_nil.mp hu]
    rfl
  | cons c rest ih =>
    intro u hu
    by_cases hp : closeMarker.isPrefixOf (c :: rest)
    · rw [findClose, if_pos hp] at hfc
      cases hfc
    · have hrest : findClose rest = none := by
        rw [findClose, if_neg hp] at hfc
        exact hfc
      rcases List.suffix_cons_iff.mp hu with hh | hh
      · rw [hh]
        exact Bool.not_eq_true _ ▸ (by simpa using hp)
      · exact ih hrest u hh

/-- With no closing-marker occurrence ahead, the whitespace-then-close check
fails everywhere. -/
theorem stripClose_none_of_no_close {t : List Char}
    (hpref : ∀ u, u <:+ t → closeMarker.isPrefixOf u = false) {v : List Char}
    (hv : v <:+ t) : stripClose v = none := by
  simp only [stripClose]
  rw [hpref (dropWs v) ((List.dropWhile_suffix isPyWs).trans hv)]
  simp

/-- With no closing-marker occurrence ahead, the lazy body scan never
finds a match. -/
theorem scanBody_none_of_no_close {t : List Char}
    (hpref : ∀ u, u <:+ t → closeMarker.isPrefixOf u = false) :
    ∀ (v : List Char) (acc : List Char), v <:+ t → scanBody acc v = none := by
  intro v
  induction v with
  | nil => intro acc _; rfl
  | cons c r ih =>
    intro acc hv
    have hr : r <:+ t := (List.suffix_cons c r).trans hv
    have hsc : stripClose r = none := stripClose_none_of_no_close hpref hr
    by_cases hc : c = '}'
    · simp only [scanBody, hc, if_true, hsc]
      exact ih _ hr
    · simp only [scanBody, hc, if_false]
      exact ih _ hr

/-- With no closing-marker occurrence, the parse regex fails at every
position. -/
theorem tryAt_none_of_no_close {t : List Char}
    (hpref : ∀ u, u <:+ t → closeMarker.isPrefixOf u = false) {v : List Char}
    (hv : v <:+ t) : tryAt v = none := by
  unfold tryAt
  by_cases hop : openMarker.isPrefixOf v
  · rw [if_pos hop]
    have hsub : dropWs (v.drop openMarker.length) <:+ t :=
      ((List.dropWhile_suffix isPyWs).trans ((List.drop_suffix _ _).trans hv))
    cases hd : dropWs (v.drop openMarker.length) with
    | nil => rfl
    | cons c body =>
      dsimp only
      by_cases hc : c = '{'
      · have hbody : body <:+ t := by
          have hcb : body <:+ c :: body := List.suffix_cons c body
          rw [← hd] at hcb
          exact hcb.trans hsub
        rw [if_pos hc, scanBody_none_of_no_close hpref body [] hbody]
      · rw [if_neg hc]
  · rw [if_neg hop]

/-- With no closing-marker occurrence, the search finds nothing. -/
theorem searchParse_none_of_no_close (t : List Char) (hfc : findClose t = none) :
    searchParse t = none := by
  have hpref := no_close_suffix t hfc
  suffices hgen : ∀ v, v <:+ t → searchParse v = none from hgen t (List.suffix_refl t)
  intro v
  induction v with
  | nil => intro _; rfl
  | cons c r ih =>
    intro hv
    rw [searchParse, tryAt_none_of_no_close hpref hv]
    exact ih ((List.suffix_cons c r).trans hv)

/-- No closing-marker occurrence in the whole text means none in any
suffix. -/
theorem findClose_none_suffix {t : List Char} (hfc : findClose t = none) :
    ∀ v, v <:+ t → findClose v = none := by
  have hpref := no_close_suffix t hfc
  intro v
  induction v with
  | nil => intro _; rfl
  | cons c r ih =>
    intro hv
    rw [findClose, if_neg ?hneg]
    case hneg =>
      rw [hpref (c :: r) hv]
      simp
    exact ih ((List.suffix_cons c r).trans hv)

/-- With no closing-marker occurrence, the substitution leaves the text
unchanged, whatever the fuel. -/
theorem cleanSubF_id_of_no_close {t : List Char} (hfc : findClose t = none) :
    ∀ (fuel : Nat) (v : List Char), v <:+ t → cleanSubF fuel v = v := by
  intro fuel
  induction fuel with
  | zero => intro v _; rfl
  | succ f ih =>
    intro v hv
    cases v with
    | nil => rfl
    | cons c r =>
      have hr : r <:+ t := (List.suffix_cons c r).trans hv
      by_cases hop : openMarker.isPrefixOf (c :: r)
      · simp only [cleanSubF, hop, if_true]
        rw [findClose_none_suffix hfc ((c :: r).drop openMarker.length)
          ((List.drop_suffix _ _).trans hv)]
        rw [ih r hr]
      · simp only [cleanSubF, hop, if_false]
        rw [ih r hr]
        simp

/-- Greedy whitespace skipping consumes a whitespace-only prefix. -/
theorem dropWs_ws_append {w : List Char} (hw : ∀ c ∈ w, isPyWs c = true)
    (l : List Char) : dropWs (w ++ l) = dropWs l := by
  induction w with
  | nil => rfl
  | cons c t ih =>
    have hc := hw c (List.mem_cons_self _ _)
    simp only [dropWs, List.cons_append, List.dropWhile_cons, hc, if_true]
    exact ih (fun x hx => hw x (List.mem_cons_of_mem _ hx))

/-- Whitespace skipping stops at a non-whitespace head. -/
theorem dropWs_not_ws {c : Char} (h : isPyWs c = false) (l : List Char) :
    dropWs (c :: l) = c :: l := by
  simp [dropWs, List.dropWhile_cons, h]

/-- The lazy scan walks through a brace-free interior and ends at the first
closing brace whose tail passes the whitespace-then-close check. -/
theorem scanBody_through {tail r : List Char} (hsc : stripClose tail = some r) :
    ∀ (mid acc : List Char), '}' ∉ mid →
      scanBody acc (mid ++ '}' :: tail) = some (acc.reverse ++ mid, r) := by
  intro mid
  induction mid with
  | nil =>
    intro acc _
    simp [scanBody, hsc]
  | cons m ms ih =>
    intro acc hm
    have hmne : m ≠ '}' := fun hh => hm (hh ▸ List.mem_cons_self _ _)
    simp only [List.cons_append, scanBody, hmne, if_false, List.append_eq]
    rw [ih (m :: acc) (fun hx => hm (List.mem_cons_of_mem _ hx))]
    simp [List.append_assoc]

/-- The whitespace-then-close check succeeds right before the closing
marker. -/
theorem stripClose_at_close {w2 : List Char} (hw2 : ∀ c ∈ w2, isPyWs c = true)
    (s : List Char) : stripClose (w2 ++ (closeMarker ++ s)) = some s := by
  simp only [stripClose]
  rw [dropWs_ws_append hw2]
  have hcm : dropWs (closeMarker ++ s) = closeMarker ++ s := by
    simp only [closeMarker, List.cons_append]
    exact dropWs_not_ws (by decide) _
  rw [hcm, isPrefixOf_self_append]
  simp [List.drop_left]

/-- The parse regex matches at the block position and captures exactly the
braced group. -/
theorem tryAt_block {w1 mid w2 : List Char}
    (hw1 : ∀ c ∈ w1, isPyWs c = true) (hmid : '}' ∉ mid)
    (hw2 : ∀ c ∈ w2, isPyWs c = true) (s : List Char) :
    tryAt (openMarker ++ (w1 ++ ('{' :: (mid ++ ('}' :: (w2 ++ (closeMarker ++ s))))))) =
      some ('{' :: (mid ++ ['}'])) := by
  unfold tryAt
  rw [isPrefixOf_self_append, if_pos rfl, List.drop_left]
  rw [dropWs_ws_append hw1, dropWs_not_ws (by decide)]
  dsimp only
  rw [if_pos rfl]
  rw [scanBody_through (stripClose_at_close hw2 s) mid [] hmid]
  simp

/-- The search walks past a brace-free prefix. -/
theorem searchParse_skip {p : List Char} (hp : '{' ∉ p) (rest : List Char) :
    searchParse (p ++ rest) = searchParse rest := by
  induction p with
  | nil => rfl
  | cons c t ih =>
    have hc : c ≠ '{' := fun hh => hp (hh ▸ List.mem_cons_self _ _)
    have hta : tryAt (c :: (t ++ rest)) = none := by
      unfold tryAt
      rw [openMarker_not_pfx c _ hc]
      simp
    simp only [List.cons_append, searchParse, List.append_eq, hta]
    exact ih (fun hx => hp (List.mem_cons_of_mem _ hx))

/-- The lazy close search walks past a brace-free prefix. -/
theorem findClose_skip {u : List Char} (hu : '{' ∉ u) (v : List Char) :
    findClose (u ++ v) = findClose v := by
  induction u with
  | nil => rfl
  | cons c t ih =>
    have hc : c ≠ '{' := fun hh => hu (hh ▸ List.mem_cons_self _ _)
    simp only [List.cons_append, findClose]
    rw [closeMarker_not_pfx c _ hc]
    simp only [Bool.false_eq_true, if_false]
    exact ih (fun hx => hu (List.mem_cons_of_mem _ hx))

/-- The close search succeeds immediately at the closing marker itself. -/
theorem findClose_at_close (s : List Char) :
    findClose (closeMarker ++ s) = some s := by
  simp [closeMarker, findClose, List.isPrefixOf]

/-- Inside a well-formed block the first closing-marker occurrence is the
block terminator. -/
theorem findClose_at_block {w1 mid w2 : List Char}
    (hw1 : ∀ c ∈ w1, isPyWs c = true) (hq : mid.head? = some '"')
    (hmidb : '{' ∉ mid) (hw2 : ∀ c ∈ w2, isPyWs c = true) (s : List Char) :
    findClose (w1 ++ ('{' :: (mid ++ ('}' :: (w2 ++ (closeMarker ++ s)))))) = some s := by
  have hw1b : '{' ∉ w1 := by
    intro hx
    have := hw1 _ hx
    simp [isPyWs] at this
  have hw2b : '{' ∉ w2 := by
    intro hx
    have := hw2 _ hx
    simp [isPyWs] at this
  rw [findClose_skip hw1b]
  cases mid with
  | nil => cases hq
  | cons m0 ms =>
    have hm0 : m0 = '"' := by simpa using hq
    subst hm0
    have hmsb : '{' ∉ ms := fun hx => hmidb (List.mem_cons_of_mem _ hx)
    simp only [List.cons_append, List.append_eq]
    rw [findClose, if_neg ?hne1]
    case hne1 =>
      simp [closeMarker, List.isPrefixOf,
        show (('/' : Char) == '"') = false from by decide]
    rw [findClose, if_neg ?hne2]
    case hne2 =>
      rw [closeMarker_not_pfx '"' _ (by decide)]
      simp
    rw [findClose_skip hmsb]
    rw [findClose, if_neg ?hne3]
    case hne3 =>
      rw [closeMarker_not_pfx '}' _ (by decide)]
      simp
    rw [findClose_skip hw2b, findClose_at_close]

/-- A successful probe makes the whole search succeed on a nonempty
text. -/
theorem searchParse_pos (c : Char) (rest : List Char) (g : List Char)
    (h : tryAt (c :: rest) = some g) : searchParse (c :: rest) = some g := by
  rw [searchParse, h]

/-- A brace-free text passes through the substitution unchanged, whatever
the fuel. -/
theorem cleanSubF_id_no_brace :
    ∀ (fuel : Nat) (v : List Char), '{' ∉ v → cleanSubF fuel v = v := by
  intro fuel
  induction fuel with
  | zero => intro v _; rfl
  | succ f ih =>
    intro v hv
    cases v with
    | nil => rfl
    | cons c r =>
      have hc : c ≠ '{' := fun hh => hv (hh ▸ List.mem_cons_self _ _)
      have hr : '{' ∉ r := fun hx => hv (List.mem_cons_of_mem _ hx)
      simp only [cleanSubF, openMarker_not_pfx c _ hc, Bool.false_eq_true, if_false]
      rw [ih r hr]

/-- The substitution copies a brace-free prefix verbatim, consuming one
fuel per character. -/
theorem cleanSubF_skip :
    ∀ (p : List Char) (fuel : Nat) (rest : List Char), '{' ∉ p →
      cleanSubF (p.length + fuel) (p ++ rest) = p ++ cleanSubF fuel rest := by
  intro p
  induction p with
  | nil => intro fuel rest _; simp
  | cons c t ih =>
    intro fuel rest hp
    have hc : c ≠ '{' := fun hh => hp (hh ▸ List.mem_cons_self _ _)
    have ht : '{' ∉ t := fun hx => hp (List.mem_cons_of_mem _ hx)
    have hlen : (c :: t).length + fuel = (t.length + fuel) + 1 := by
      simp [List.length_cons]
      omega
    rw [hlen]
    simp only [List.cons_append, cleanSubF, openMarker_not_pfx c _ hc,
      Bool.false_eq_true, if_false, List.append_eq]
    rw [ih fuel rest ht]

/-- One substitution step deletes a whole well-formed block together with
the whitespace after its closing marker. -/
theorem cleanSubF_block {w1 mid w2 : List Char} (fuel : Nat)
    (hw1 : ∀ c ∈ w1, isPyWs c = true) (hq : mid.head? = some '"')
    (hmidb : '{' ∉ mid) (hw2 : ∀ c ∈ w2, isPyWs c = true) (s : List Char) :
    cleanSubF (fuel + 1)
      (openMarker ++ (w1 ++ ('{' :: (mid ++ ('}' :: (w2 ++ (closeMarker ++ s))))))) =
      cleanSubF fuel (dropWs s) := by
  have hfc := findClose_at_block hw1 hq hmidb hw2 s
  have hpre : openMarker.isPrefixOf
      (openMarker ++ (w1 ++ ('{' :: (mid ++ ('}' :: (w2 ++ (closeMarker ++ s))))))) =
      true := isPrefixOf_self_append _ _
  have hdrop : (openMarker ++
      (w1 ++ ('{' :: (mid ++ ('}' :: (w2 ++ (closeMarker ++ s))))))).drop
        openMarker.length =
      w1 ++ ('{' :: (mid ++ ('}' :: (w2 ++ (closeMarker ++ s))))) :=
    List.drop_left _ _
  rw [show openMarker ++
      (w1 ++ ('{' :: (mid ++ ('}' :: (w2 ++ (closeMarker ++ s)))))) =
      '{' :: (['C', 'H', 'A', 'R', 'T', '_', 'D', 'A', 'T', 'A', '}'] ++
        (w1 ++ ('{' :: (mid ++ ('}' :: (w2 ++ (closeMarker ++ s))))))) from rfl]
  rw [cleanSubF]
  rw [show ('{' :: (['C', 'H', 'A', 'R', 'T', '_', 'D', 'A', 'T', 'A', '}'] ++
      (w1 ++ ('{' :: (mid ++ ('}' :: (w2 ++ (closeMarker ++ s)))))))) =
      openMarker ++
        (w1 ++ ('{' :: (mid ++ ('}' :: (w2 ++ (closeMarker ++ s)))))) from rfl]
  rw [hpre, if_pos rfl, hdrop, hfc]

/-- The limited extraction never yields more pairs than the unlimited
filter. -/
theorem extractData_length_le (data : List Row) (lf vf : String) (limit : Nat) :
    (extractData data lf vf limit).length ≤ (filterValid data lf vf).length := by
  induction data generalizing limit with
  | nil => simp [extractData, filterValid]
  | cons r rest ih =>
    cases hp : pairOf r lf vf with
    | none => simpa [extractData, filterValid, List.filterMap_cons, hp] using ih limit
    | some lv =>
      by_cases hl : limit ≤ 1
      · simp [extractData, filterValid, List.filterMap_cons, hp, hl]
      · simp only [extractData, filterValid, List.filterMap_cons, hp, if_neg hl,
          List.length_cons]
        have := ih (limit - 1)
        simpa [filterValid] using this

/-- C5 counterexample: the transition validator accepts reopening a Closed
session to Active, contradicting the claim that a Closed session never
transitions back to Active. -/
theorem c5_counterexample :
    sessionSave (some { status := SessStatus.closed, user := "u" })
        { status := SessStatus.active, user := "u" } =
      Except.ok { status := SessStatus.active, user := "u" } := by rfl

/-- C5 (amended): the status-transition validation rejects exactly the
direct Expired to Active transition; a Closed session with an unchanged
owner saves back to Active without complaint. -/
theorem c5_status_transitions :
    (∀ o n : Sess, o.status = SessStatus.expired → n.status = SessStatus.active →
      (sessionSave (some o) n).isOk = false) ∧
    (∀ o n : Sess, o.status = SessStatus.closed → n.status = SessStatus.active →
      o.user = n.user → sessionSave (some o) n = Except.ok n) := by
  constructor
  · intro o n ho hn
    by_cases hu : o.user = n.user
    · simp [sessionSave, hu, ho, hn, Except.isOk, Except.toBool]
    · simp [sessionSave, hu, Except.isOk, Except.toBool]
  · intro o n ho hn hu
    simp [sessionSave, hu, ho, hn]

/-- C5 witness: the amended statement applied at concrete sessions. -/
theorem c5_witness :
    ((sessionSave (some { status := SessStatus.expired, user := "u" })
        { status := SessStatus.active, user := "u" }).isOk = false) ∧
    sessionSave (some { status := SessStatus.closed, user := "u2" })
        { status := SessStatus.active, user := "u2" } =
      Except.ok { status := SessStatus.active, user := "u2" } :=
  ⟨c5_status_transitions.1 _ _ rfl rfl, c5_status_transitions.2 _ _ rfl rfl rfl⟩

/-- C2 counterexample: a message against an Active session is rejected when
its content exceeds the 50000 character cap, so creation against an Active
session does not always succeed. -/
theorem c2_counterexample :
    (createMessage [("s", SessStatus.active)] "s" "user"
      (List.replicate 50001 'a')).isOk = false := by
  have key : ∀ content : List Char, content.length = 50001 →
      (createMessage [("s", SessStatus.active)] "s" "user" content).isOk = false := by
    intro content hlen
    have hg : assocGet [("s", SessStatus.active)] "s" = some SessStatus.active := rfl
    have h1 : validateMessage [("s", SessStatus.active)] "s" content =
        Except.error "Message content exceeds maximum length of 50000 characters" := by
      unfold validateMessage
      rw [hg]
      simp [hlen]
    unfold createMessage
    rw [h1]
    rfl
  exact key _ (by rw [List.length_replicate])

/-- C2 (amended): a message is created exactly when the session exists with
status Active at creation time and the content is within the 50000 character
cap. -/
theorem c2_message_iff (store : List (String × SessStatus)) (sid role : String)
    (content : List Char) :
    (createMessage store sid role content).isOk = true ↔
      (assocGet store sid = some SessStatus.active ∧ content.length ≤ 50000) := by
  unfold createMessage validateMessage
  cases hg : assocGet store sid with
  | none => simp [Except.isOk, Except.toBool]
  | some st =>
    cases st with
    | active =>
      by_cases hl : 50000 < content.length
      · simp [hl, Except.isOk, Except.toBool]
      · simp [hl, Except.isOk, Except.toBool]
        omega
    | closed => simp [Except.isOk, Except.toBool]
    | expired => simp [Except.isOk, Except.toBool]

/-- C2 witness: creation succeeds on an Active session with short content,
by the amended equivalence. -/
theorem c2_witness :
    (createMessage [("s", SessStatus.active)] "s" "user" "hi".data).isOk = true :=
  (c2_message_iff [("s", SessStatus.active)] "s" "user" "hi".data).mpr
    (by constructor <;> decide)

/-- C8: with fewer than two valid label-number pairs after filtering, the
builder yields no chart. -/
theorem c8_insufficient_data (data : List Row) (lf vf ct : String)
    (title x y : Option String) (colors : Option (List String)) (limit : Nat)
    (h : (filterValid data lf vf).length < 2) :
    buildChartData data lf vf ct title x y colors limit = none := by
  unfold buildChartData
  by_cases hd : data.length < MIN_DATA_POINTS
  · simp [hd]
  · have hle := extractData_length_le data lf vf limit
    have hex : (extractData data lf vf limit).length < MIN_DATA_POINTS := by
      unfold MIN_DATA_POINTS
      omega
    simp [hd, hex]

/-- C8 witness: the spec example, one row whose value is the letter x, has
no valid pairs and yields no chart. -/
theorem c8_witness :
    (filterValid [[("label", V.s "A"), ("value", V.s "x")]] "label" "value").length < 2 ∧
    buildChartData [[("label", V.s "A"), ("value", V.s "x")]] "label" "value" "bar"
      none none none none 50 = none :=
  ⟨by decide, c8_insufficient_data _ _ _ _ _ _ _ _ _ (by decide)⟩

/-- C9 counterexample: on the spec input the distribution is sorted
descending by value, so the labels come out B then A with shares 75 then
25, not A then B with 25 then 75 as claimed. -/
theorem c9_counterexample :
    (calculateDistribution c9data "cat" "val" 50).map ChartData.labels = some ["B", "A"] ∧
    (calculateDistribution c9data "cat" "val" 50).map ChartData.labels ≠ some ["A", "B"] ∧
    (calculateDistribution c9data "cat" "val" 50).map ChartData.values ≠ some [25, 75] := by
  refine ⟨by decide, by decide, by decide⟩

/-- C9 (amended): the pie distribution aggregates by category and converts
shares to percentages rounded to two decimals, and on the spec input
produces labels B then A with percentages 75 and 25 (descending by value),
which sum to 100. -/
theorem c9_distribution :
    calculateDistribution c9data "cat" "val" 50 = some c9expected ∧
    c9expected.labels = ["B", "A"] ∧
    c9expected.values = [75, 25] ∧
    qSum c9expected.values = 100 := by
  refine ⟨by decide, rfl, rfl, by decide⟩

/-- C4 counterexample: dispatch of an unregistered tool name with both
identifiers present returns an error result but writes no tool-call record,
contradicting the claim that one record is still produced. -/
theorem c4_counterexample :
    (executeTool regW "bogus_tool" [] "sess-1" (some "audit-1") "user1").2.2 = [] ∧
    (executeTool regW "bogus_tool" [] "sess-1" (some "audit-1") "user1").1.status =
      "error" :=
  ⟨rfl, rfl⟩

/-- C4 (amended): for every tool name outside the registry, execute_tool
returns the descriptive unknown-tool error result without raising, leaves
the arguments untouched, and writes no tool-call record, because it returns
before the audit-logging wrapper can run. -/
theorem c4_unknown_tool (tools : String → Option (Args → ToolApp)) (name : String)
    (args : Args) (sid : String) (aid : Option String) (user : String)
    (h : tools name = none) :
    executeTool tools name args sid aid user =
      ({ result := "Error: Unknown tool " ++ apos ++ name ++ apos, status := "error" },
       args, []) := by
  unfold executeTool
  rw [h]

/-- C4 witness: the amended statement applied to a concrete missing name. -/
theorem c4_witness :
    executeTool regW "missing_tool" [("x", V.n 1)] "s" (some "a") "u" =
      ({ result := "Error: Unknown tool " ++ apos ++ "missing_tool" ++ apos,
         status := "error" },
       [("x", V.n 1)], []) :=
  c4_unknown_tool regW "missing_tool" [("x", V.n 1)] "s" (some "a") "u" rfl

/-- C10 counterexample: a turn whose single tool call names an unregistered
tool finalizes a data-accessed trail whose entry carries the arguments
unmodified, without the injected context keys, so not every entry contains
them. -/
theorem c10_counterexample :
    findFinalize (processMessage envC10 "sess-1" "question" "user1").2 =
      some (Ev.finalize (some "answer")
        (some [{ tool := "bogus_tool", arguments := [("filter", V.s "x")] }])
        true false none 1) ∧
    assocGet [("filter", V.s "x")] "session_id" = none :=
  ⟨by decide, by decide⟩

/-- C10 (amended): for a registered tool, execute_tool mutates the argument
dictionary in place, so the recorded data-accessed entry carries the
injected session, audit and user keys on top of the original arguments; for
an unregistered name the dictionary is returned untouched. -/
theorem c10_argument_injection :
    (∀ (tools : String → Option (Args → ToolApp)) (name : String) (args : Args)
        (sid : String) (aid : Option String) (user : String) (fn : Args → ToolApp),
      tools name = some fn →
      (assocGet (executeTool tools name args sid aid user).2.1 "session_id" =
          some (V.s sid) ∧
       assocGet (executeTool tools name args sid aid user).2.1 "audit_log_id" =
          some (optV aid) ∧
       assocGet (executeTool tools name args sid aid user).2.1 "user" =
          some (V.s user)) ∧
      (∀ k, k ≠ "session_id" → k ≠ "audit_log_id" → k ≠ "user" →
        assocGet (executeTool tools name args sid aid user).2.1 k = assocGet args k)) ∧
    (∀ (tools : String → Option (Args → ToolApp)) (name : String) (args : Args)
        (sid : String) (aid : Option String) (user : String),
      tools name = none →
      (executeTool tools name args sid aid user).2.1 = args) := by
  constructor
  · intro tools name args sid aid user fn h
    have hx : (executeTool tools name args sid aid user).2.1 =
        assocSet (assocSet (assocSet args "session_id" (V.s sid))
          "audit_log_id" (optV aid)) "user" (V.s user) := by
      simp only [executeTool, h]
      split <;> rfl
    rw [hx]
    refine ⟨⟨?_, ?_, ?_⟩, ?_⟩
    · rw [assocGet_set_ne _ _ _ _ (by decide), assocGet_set_ne _ _ _ _ (by decide),
        assocGet_set_eq]
    · rw [assocGet_set_ne _ _ _ _ (by decide), assocGet_set_eq]
    · rw [assocGet_set_eq]
    · intro k h1 h2 h3
      rw [assocGet_set_ne _ _ _ _ h3, assocGet_set_ne _ _ _ _ h2,
        assocGet_set_ne _ _ _ _ h1]
  · intro tools name args sid aid user h
    unfold executeTool
    rw [h]

/-- C10 witness: the amended statement at a registered and an unregistered
name. -/
theorem c10_witness :
    (assocGet (executeTool regW "get_revenue" [("from_date", V.s "2024-01-01")]
        "s" (some "a") "u").2.1 "session_id" = some (V.s "s") ∧
     assocGet (executeTool regW "get_revenue" [("from_date", V.s "2024-01-01")]
        "s" (some "a") "u").2.1 "audit_log_id" = some (optV (some "a")) ∧
     assocGet (executeTool regW "get_revenue" [("from_date", V.s "2024-01-01")]
        "s" (some "a") "u").2.1 "user" = some (V.s "u")) ∧
    (executeTool regW "missing2" [("y", V.n 2)] "s" (some "a") "u").2.1 =
      [("y", V.n 2)] :=
  ⟨(c10_argument_injection.1 regW "get_revenue" [("from_date", V.s "2024-01-01")]
      "s" (some "a") "u" revenueFn rfl).1,
   c10_argument_injection.2 regW "missing2" [("y", V.n 2)] "s" (some "a") "u" rfl⟩

/-- C6 counterexample: the extractor accepts a chart dictionary whose labels
array has one element while its values array has two, so extractor-accepted
descriptors do not always have equal-length labels and values. -/
theorem c6_counterexample :
    (parseChartFromResponse c6text).isSome = true ∧
    (parseChartFromResponse c6text).bind (fun j => jsonFieldLen j "labels") = some 1 ∧
    (parseChartFromResponse c6text).bind (fun j => jsonFieldLen j "values") = some 2 :=
  ⟨by decide, by rfl, by rfl⟩

/-- C6 (amended): every descriptor the builder constructs has labels and
values of equal length, in each of its four construction paths; the
extractor checks only the presence of the three required fields and a valid
chart type, not the lengths. -/
theorem c6_descriptor_lengths :
    (∀ (data : List Row) (lf vf ct : String) (t x y : Option String)
        (colors : Option (List String)) (limit : Nat) (d : ChartData),
      buildChartData data lf vf ct t x y colors limit = some d →
      d.labels.length = d.values.length) ∧
    (∀ (data : List Row) (lf vf sb : String) (asc : Bool) (limit : Nat) (d : ChartData),
      aggregateForBarChart data lf vf sb asc limit = some d →
      d.labels.length = d.values.length) ∧
    (∀ (data : List Row) (tf vf : String) (limit : Nat) (d : ChartData),
      aggregateForLineChart data tf vf limit = some d →
      d.labels.length = d.values.length) ∧
    (∀ (data : List Row) (cf vf : String) (limit : Nat) (d : ChartData),
      calculateDistribution data cf vf limit = some d →
      d.labels.length = d.values.length) ∧
    (∀ (text : List Char) (j : Json), parseChartFromResponse text = some j →
      ∃ flds, j = Json.obj flds ∧ requiredFieldsOk flds = true) := by
  refine ⟨?_, ?_, ?_, ?_, ?_⟩
  · intro data lf vf ct t x y colors limit d h
    simp only [buildChartData] at h
    have h2 := opt_ite_none (opt_ite_none h)
    obtain rfl := (Option.some.inj h2).symm
    simp [List.length_map]
  · intro data lf vf sb asc limit d h
    simp only [aggregateForBarChart] at h
    have h2 := opt_ite_none h
    obtain rfl := (Option.some.inj h2).symm
    simp [List.length_map]
  · intro data tf vf limit d h
    simp only [aggregateForLineChart] at h
    have h2 := opt_ite_none h
    obtain rfl := (Option.some.inj h2).symm
    simp [List.length_map]
  · intro data cf vf limit d h
    simp only [calculateDistribution] at h
    have h2 := opt_ite_none (opt_ite_none h)
    obtain rfl := (Option.some.inj h2).symm
    simp [List.length_map]
  · intro text j h
    unfold parseChartFromResponse at h
    split at h
    · exact absurd h (by simp)
    · split at h
      · split at h
        · obtain rfl := (Option.some.inj h).symm
          exact ⟨_, rfl, by assumption⟩
        · exact absurd h (by simp)
      · exact absurd h (by simp)

/-- C6 witness: the amended statement at a concrete built chart and a
concrete extracted dictionary. -/
theorem c6_witness :
    (buildChartData c6rows "m" "v" "bar" none none none none 50 = some c6d ∧
     c6d.labels.length = c6d.values.length) ∧
    (parseChartFromResponse c6text = some c6json ∧
     ∃ flds, c6json = Json.obj flds ∧ requiredFieldsOk flds = true) :=
  ⟨⟨by decide,
    c6_descriptor_lengths.1 c6rows "m" "v" "bar" none none none none 50 c6d (by decide)⟩,
   ⟨by rfl, c6_descriptor_lengths.2.2.2.2 c6text c6json (by rfl)⟩⟩

/-- The whole substitution deletes a single well-formed block together with
the whitespace after its closing marker, leaving the surrounding text. -/
theorem cleanSub_block {p w1 mid w2 s : List Char}
    (hp : '{' ∉ p) (hw1 : ∀ c ∈ w1, isPyWs c = true)
    (hq : mid.head? = some '"') (hmidb : '{' ∉ mid)
    (hw2 : ∀ c ∈ w2, isPyWs c = true) (hs : '{' ∉ s) :
    cleanSub
      (p ++ (openMarker ++ (w1 ++ ('{' :: (mid ++ ('}' :: (w2 ++ (closeMarker ++ s)))))))) =
      p ++ dropWs s := by
  unfold cleanSub
  rw [List.length_append]
  rw [cleanSubF_skip p _ _ hp]
  have hfl : (openMarker ++
      (w1 ++ ('{' :: (mid ++ ('}' :: (w2 ++ (closeMarker ++ s))))))).length =
      (11 + (w1 ++ ('{' :: (mid ++ ('}' :: (w2 ++ (closeMarker ++ s)))))).length) + 1 := by
    rw [List.length_append]
    simp only [openMarker, List.length_cons, List.length_nil]
    omega
  rw [hfl, cleanSubF_block _ hw1 hq hmidb hw2 s]
  have hds : '{' ∉ dropWs s := fun hx => hs ((List.dropWhile_suffix _).subset hx)
  rw [cleanSubF_id_no_brace _ _ hds]

/-- The extractor accepts a single well-formed block whose braced group
json-parses to a dictionary passing the field validation. -/
theorem parseChart_block {p w1 mid w2 s : List Char} {flds : List (String × Json)}
    (hp : '{' ∉ p) (hw1 : ∀ c ∈ w1, isPyWs c = true)
    (hmid : '}' ∉ mid) (hw2 : ∀ c ∈ w2, isPyWs c = true)
    (hjson : jsonLoads ('{' :: (mid ++ ['}'])) = some (Json.obj flds))
    (hreq : requiredFieldsOk flds = true) :
    parseChartFromResponse
      (p ++ (openMarker ++ (w1 ++ ('{' :: (mid ++ ('}' :: (w2 ++ (closeMarker ++ s)))))))) =
      some (Json.obj flds) := by
  have hsp : searchParse
      (openMarker ++ (w1 ++ ('{' :: (mid ++ ('}' :: (w2 ++ (closeMarker ++ s))))))) =
      some ('{' :: (mid ++ ['}'])) :=
    searchParse_pos '{' _ _ (tryAt_block hw1 hmid hw2 s)
  unfold parseChartFromResponse
  rw [searchParse_skip hp]
  rw [hsp]
  simp only [hjson, hreq, if_true]

/-- C7: the first conjunct confirms the positive half of the claim - a text
holding a well-formed marker block whose json group parses to a dictionary
passing the field validation yields that dictionary and the visible text
with the block removed and whitespace trimmed.  The second conjunct settles
the negative half as the code actually behaves: when no closing marker
occurs anywhere, no chart is produced, but the visible text is the original
text STRIPPED of surrounding whitespace, not the original text unchanged. -/
theorem c7_chart_extraction :
    (∀ (p w1 mid w2 s : List Char) (flds : List (String × Json)),
      '{' ∉ p → (∀ c ∈ w1, isPyWs c = true) → mid.head? = some '"' →
      '}' ∉ mid → '{' ∉ mid → (∀ c ∈ w2, isPyWs c = true) → '{' ∉ s →
      jsonLoads ('{' :: (mid ++ ['}'])) = some (Json.obj flds) →
      requiredFieldsOk flds = true →
      parseChartFromResponse
        (p ++ (openMarker ++ (w1 ++ ('{' :: (mid ++ ('}' :: (w2 ++ (closeMarker ++ s)))))))) =
        some (Json.obj flds) ∧
      cleanChartMarkers
        (p ++ (openMarker ++ (w1 ++ ('{' :: (mid ++ ('}' :: (w2 ++ (closeMarker ++ s)))))))) =
        pyStrip (p ++ dropWs s)) ∧
    (∀ t : List Char, findClose t = none →
      parseChartFromResponse t = none ∧ cleanChartMarkers t = pyStrip t) := by
  constructor
  · intro p w1 mid w2 s flds hp hw1 hq hmid hmidb hw2 hs hjson hreq
    refine ⟨parseChart_block hp hw1 hmid hw2 hjson hreq, ?_⟩
    unfold cleanChartMarkers
    rw [cleanSub_block hp hw1 hq hmidb hw2 hs]
  · intro t hfc
    constructor
    · unfold parseChartFromResponse
      rw [searchParse_none_of_no_close t hfc]
    · unfold cleanChartMarkers cleanSub
      rw [cleanSubF_id_of_no_close hfc _ _ (List.suffix_refl t)]

/-- C7 counterexample: a text with an opening marker, no closing marker and
surrounding whitespace produces no chart, yet the visible text differs from
the original - the strip runs unconditionally. -/
theorem c7_counterexample :
    parseChartFromResponse c7badText = none ∧ cleanChartMarkers c7badText ≠ c7badText := by
  refine ⟨rfl, ?_⟩
  decide

/-- C7 witness: the positive half at the spec example block embedded in
surrounding prose, and the negative half at the unbalanced text. -/
theorem c7_witness :
    (parseChartFromResponse ("Sales grew. ".data ++ (openMarker ++
        ([] ++ ('{' :: (c7mid ++ ('}' :: ([] ++ (closeMarker ++ " done".data)))))))) =
        some (Json.obj c7flds) ∧
      cleanChartMarkers ("Sales grew. ".data ++ (openMarker ++
        ([] ++ ('{' :: (c7mid ++ ('}' :: ([] ++ (closeMarker ++ " done".data)))))))) =
        pyStrip ("Sales grew. ".data ++ dropWs " done".data)) ∧
    (parseChartFromResponse c7badText = none ∧
      cleanChartMarkers c7badText = pyStrip c7badText) := by
  constructor
  · exact c7_chart_extraction.1 "Sales grew. ".data [] c7mid [] " done".data c7flds
      (by decide) (by intro c hc; cases hc) (by rfl) (by decide) (by decide)
      (by intro c hc; cases hc) (by decide) (by rfl) (by decide)
  · exact c7_chart_extraction.2 c7badText rfl
